import Mathlib

/-!
# `dbee/core/types.go`: the structure-type encoding and its parser

A shallow embedding of `StructureType`, `StructureType.String` and
`StructureTypeFromString` from `dbee/core/types.go`, together with the parts of
the Go standard library the parser runs through (`strings.ToLower`,
`strings.ToUpper`, `strings.Map`, `unicode.ToLower`, `unicode.ToUpper`,
`utf8.DecodeRuneInString`, `utf8.AppendRune`).

Conventions of the embedding:

* a Go `string` is a list of bytes, valid UTF-8 or not;
* a Go `rune` (`int32`) is an `Int`; every rune that occurs is in `[0, 0x10FFFF]`,
  so no arithmetic wraps;
* bit masks and shifts of the library are written arithmetically
  (`x & 0x3F` as `x % 64`, `x << 6` as `x * 64`, and `a | b` as `a + b` where
  the operands have no bit in common), each with the Go expression quoted;
* loops are structural recursions on a fuel argument that is shown sufficient;
* the interfaces `ResultStream` and `Formatter` have no implementation in
  `types.go`; their contracts are modelled from the specification.

The file has the definitions first and the theorems after them.
-/

namespace Dbee

/- The closed evaluations of the decoder, the case tables and the parser below
are decided by reduction, which needs more recursion depth than the default. -/
set_option maxRecDepth 1000000

/-- Go `byte` (`uint8`). -/
abbrev Byte := Fin 256

/-- Go `string`: an immutable sequence of bytes, not necessarily valid UTF-8. -/
abbrev GoString := List Byte

/-- The conversion `byte(n)`: the low eight bits. -/
def byte (n : Nat) : Byte := ⟨n % 256, Nat.mod_lt n (by decide)⟩

/-! ## Package `unicode/utf8` -/

namespace utf8

/-- The "error" rune, `utf8.RuneError = '�'`. -/
def RuneError : Int := 0xFFFD
/-- Characters below `RuneSelf` are represented as themselves in a single byte. -/
def RuneSelf : Nat := 0x80
/-- Maximum valid Unicode code point. -/
def MaxRune : Int := 0x10FFFF

def surrogateMin : Nat := 0xD800
def surrogateMax : Nat := 0xDFFF

def rune1Max : Nat := 0x7F
def rune2Max : Nat := 0x7FF
def rune3Max : Nat := 0xFFFF

def t2 : Nat := 0xC0
def t3 : Nat := 0xE0
def t4 : Nat := 0xF0
def tx : Nat := 0x80

/-- Lowest continuation byte, `0b10000000`. -/
def locb : Nat := 0x80
/-- Highest continuation byte, `0b10111111`. -/
def hicb : Nat := 0xBF

/-- Invalid first byte: size 1. -/
def xx : Nat := 0xF1
/-- ASCII first byte: size 1. -/
def as : Nat := 0xF0
/-- Accept 0, size 2. -/
def s1 : Nat := 0x02
/-- Accept 1, size 3. -/
def s2 : Nat := 0x13
/-- Accept 0, size 3. -/
def s3 : Nat := 0x03
/-- Accept 2, size 3. -/
def s4 : Nat := 0x23
/-- Accept 3, size 4. -/
def s5 : Nat := 0x34
/-- Accept 0, size 4. -/
def s6 : Nat := 0x04
/-- Accept 4, size 4. -/
def s7 : Nat := 0x44

/-- The table `first`: information about the first byte in a UTF-8 sequence. -/
def first : List Nat := [
  as, as, as, as, as, as, as, as, as, as, as, as, as, as, as, as,      -- 0x00-0x0F
  as, as, as, as, as, as, as, as, as, as, as, as, as, as, as, as,      -- 0x10-0x1F
  as, as, as, as, as, as, as, as, as, as, as, as, as, as, as, as,      -- 0x20-0x2F
  as, as, as, as, as, as, as, as, as, as, as, as, as, as, as, as,      -- 0x30-0x3F
  as, as, as, as, as, as, as, as, as, as, as, as, as, as, as, as,      -- 0x40-0x4F
  as, as, as, as, as, as, as, as, as, as, as, as, as, as, as, as,      -- 0x50-0x5F
  as, as, as, as, as, as, as, as, as, as, as, as, as, as, as, as,      -- 0x60-0x6F
  as, as, as, as, as, as, as, as, as, as, as, as, as, as, as, as,      -- 0x70-0x7F
  xx, xx, xx, xx, xx, xx, xx, xx, xx, xx, xx, xx, xx, xx, xx, xx,      -- 0x80-0x8F
  xx, xx, xx, xx, xx, xx, xx, xx, xx, xx, xx, xx, xx, xx, xx, xx,      -- 0x90-0x9F
  xx, xx, xx, xx, xx, xx, xx, xx, xx, xx, xx, xx, xx, xx, xx, xx,      -- 0xA0-0xAF
  xx, xx, xx, xx, xx, xx, xx, xx, xx, xx, xx, xx, xx, xx, xx, xx,      -- 0xB0-0xBF
  xx, xx, s1, s1, s1, s1, s1, s1, s1, s1, s1, s1, s1, s1, s1, s1,      -- 0xC0-0xCF
  s1, s1, s1, s1, s1, s1, s1, s1, s1, s1, s1, s1, s1, s1, s1, s1,      -- 0xD0-0xDF
  s2, s3, s3, s3, s3, s3, s3, s3, s3, s3, s3, s3, s3, s4, s3, s3,      -- 0xE0-0xEF
  s5, s6, s6, s6, s7, xx, xx, xx, xx, xx, xx, xx, xx, xx, xx, xx       -- 0xF0-0xFF
]

/-- The range of valid values for the second byte in a UTF-8 sequence. -/
structure acceptRange where
  lo : Nat
  hi : Nat
deriving DecidableEq

/-- The table `acceptRanges`; Go declares sixteen entries, of which the last
eleven are zero values. -/
def acceptRanges : List acceptRange := [
  ⟨locb, hicb⟩,
  ⟨0xA0, hicb⟩,
  ⟨locb, 0x9F⟩,
  ⟨0x90, hicb⟩,
  ⟨locb, 0x8F⟩
]

/-- Go `utf8.DecodeRuneInString`: the first rune of `s` and its width in bytes;
`(RuneError, 0)` on the empty string and `(RuneError, 1)` on an invalid
encoding.  `s0&mask2` is `s0 % 32`, `s0&mask3` is `s0 % 16`, `s0&mask4` is
`s0 % 8`, `b&maskx` is `b % 64`; the result of the mask trick
`rune(s[0])&^mask | RuneError&mask` is `s[0]` for `x = as` and `RuneError`
for `x = xx`, the low bit of `x` deciding. -/
def DecodeRuneInString (s : GoString) : Int × Nat :=
  let n := s.length
  if n < 1 then (RuneError, 0) else
  let s0 := (s.getD 0 0).val
  let x := first.getD s0 0
  if x ≥ as then
    (if x % 2 = 0 then (s0 : Int) else RuneError, 1)
  else
  let sz := x % 8
  let accept := acceptRanges.getD (x / 16) ⟨0, 0⟩
  if n < sz then (RuneError, 1) else
  let s1 := (s.getD 1 0).val
  if s1 < accept.lo ∨ accept.hi < s1 then (RuneError, 1) else
  if sz ≤ 2 then (((s0 % 32 * 64 + s1 % 64 : Nat) : Int), 2) else
  let s2 := (s.getD 2 0).val
  if s2 < locb ∨ hicb < s2 then (RuneError, 1) else
  if sz ≤ 3 then (((s0 % 16 * 4096 + s1 % 64 * 64 + s2 % 64 : Nat) : Int), 3) else
  let s3 := (s.getD 3 0).val
  if s3 < locb ∨ hicb < s3 then (RuneError, 1) else
  (((s0 % 8 * 262144 + s1 % 64 * 4096 + s2 % 64 * 64 + s3 % 64 : Nat) : Int), 4)

/-- Go `utf8.appendRuneNonASCII`, on `i = uint32(r)`: the two-, three- and
four-byte encodings, with `RuneError` written for surrogates and values
above `MaxRune`.  `t2|byte(r>>6)` is `t2 + i / 64` and `tx|byte(r)&maskx` is
`tx + i % 64`, the two operands sharing no bit in their branch. -/
def appendRuneNonASCII (p : GoString) (i : Nat) : GoString :=
  if i ≤ rune2Max then
    p ++ [byte (t2 + i / 64), byte (tx + i % 64)]
  else if i > 0x10FFFF ∨ (surrogateMin ≤ i ∧ i ≤ surrogateMax) then
    p ++ [byte (t3 + 0xFFFD / 4096), byte (tx + 0xFFFD / 64 % 64), byte (tx + 0xFFFD % 64)]
  else if i ≤ rune3Max then
    p ++ [byte (t3 + i / 4096), byte (tx + i / 64 % 64), byte (tx + i % 64)]
  else
    p ++ [byte (t4 + i / 262144), byte (tx + i / 4096 % 64), byte (tx + i / 64 % 64),
          byte (tx + i % 64)]

/-- Go `utf8.AppendRune`: appends the UTF-8 encoding of `r` to `p`;
`uint32(r)` is `r % 2^32`. -/
def AppendRune (p : GoString) (r : Int) : GoString :=
  let i := (r % 4294967296).toNat
  if i ≤ rune1Max then p ++ [byte i] else appendRuneNonASCII p i

/-- Go `utf8.RuneLen`: the number of bytes of the encoding of `r`, or `-1` if `r`
is not a valid value to encode. -/
def RuneLen (r : Int) : Int :=
  if r < 0 then -1
  else if r ≤ rune1Max then 1
  else if r ≤ rune2Max then 2
  else if surrogateMin ≤ r ∧ r ≤ surrogateMax then -1
  else if r ≤ rune3Max then 3
  else if r ≤ MaxRune then 4
  else -1

end utf8

/-! ## Package `unicode` -/

namespace unicode

def MaxRune : Int := 0x10FFFF
def MaxASCII : Int := 0x7F

/-- Index into the `Delta` array of a `CaseRange`. -/
def UpperCase : Nat := 0
def LowerCase : Nat := 1
def TitleCase : Nat := 2
def MaxCase : Nat := 3

/-- A `CaseRange` whose `Delta` fields are all `UpperLower` is an alternating
sequence of upper- and lower-case letters. -/
def UpperLower : Int := 0x10FFFF + 1

/-- Go `unicode.CaseRange`: code points `Lo..Hi` and the distance to add to get
the upper, lower and title case (`Delta[UpperCase]`, `Delta[LowerCase]`,
`Delta[TitleCase]`). -/
structure CaseRange where
  Lo : Nat
  Hi : Nat
  Delta : List Int
deriving DecidableEq

/-- Go `unicode.CaseRanges`: the simple case mappings of the Unicode Character
Database (upper, lower and title case fields of `UnicodeData.txt`, version
14.0.0), sorted by code point, in the range form of Go's `unicode/tables.go`.
The four ranges with an ASCII image, U+0130 and U+212A (lower case `i` and
`k`) and U+0131 and U+017F (upper case `I` and `S`), are in every version of
the table. -/
def CaseRanges : List CaseRange := [
  CaseRange.mk 0x0041 0x005A [0, 32, 0],
  CaseRange.mk 0x0061 0x007A [-32, 0, -32],
  CaseRange.mk 0x00B5 0x00B5 [743, 0, 743],
  CaseRange.mk 0x00C0 0x00D6 [0, 32, 0],
  CaseRange.mk 0x00D8 0x00DE [0, 32, 0],
  CaseRange.mk 0x00E0 0x00F6 [-32, 0, -32],
  CaseRange.mk 0x00F8 0x00FE [-32, 0, -32],
  CaseRange.mk 0x00FF 0x00FF [121, 0, 121],
  CaseRange.mk 0x0100 0x012F [UpperLower, UpperLower, UpperLower],
  CaseRange.mk 0x0130 0x0130 [0, -199, 0],
  CaseRange.mk 0x0131 0x0131 [-232, 0, -232],
  CaseRange.mk 0x0132 0x0137 [UpperLower, UpperLower, UpperLower],
  CaseRange.mk 0x0139 0x0148 [UpperLower, UpperLower, UpperLower],
  CaseRange.mk 0x014A 0x0177 [UpperLower, UpperLower, UpperLower],
  CaseRange.mk 0x0178 0x0178 [0, -121, 0],
  CaseRange.mk 0x0179 0x017E [UpperLower, UpperLower, UpperLower],
  CaseRange.mk 0x017F 0x017F [-300, 0, -300],
  CaseRange.mk 0x0180 0x0180 [195, 0, 195],
  CaseRange.mk 0x0181 0x0181 [0, 210, 0],
  CaseRange.mk 0x0182 0x0185 [UpperLower, UpperLower, UpperLower],
  CaseRange.mk 0x0186 0x0186 [0, 206, 0],
  CaseRange.mk 0x0187 0x0188 [UpperLower, UpperLower, UpperLower],
  CaseRange.mk 0x0189 0x018A [0, 205, 0],
  CaseRange.mk 0x018B 0x018C [UpperLower, UpperLower, UpperLower],
  CaseRange.mk 0x018E 0x018E [0, 79, 0],
  CaseRange.mk 0x018F 0x018F [0, 202, 0],
  CaseRange.mk 0x0190 0x0190 [0, 203, 0],
  CaseRange.mk 0x0191 0x0192 [UpperLower, UpperLower, UpperLower],
  CaseRange.mk 0x0193 0x0193 [0, 205, 0],
  CaseRange.mk 0x0194 0x0194 [0, 207, 0],
  CaseRange.mk 0x0195 0x0195 [97, 0, 97],
  CaseRange.mk 0x0196 0x0196 [0, 211, 0],
  CaseRange.mk 0x0197 0x0197 [0, 209, 0],
  CaseRange.mk 0x0198 0x0199 [UpperLower, UpperLower, UpperLower],
  CaseRange.mk 0x019A 0x019A [163, 0, 163],
  CaseRange.mk 0x019C 0x019C [0, 211, 0],
  CaseRange.mk 0x019D 0x019D [0, 213, 0],
  CaseRange.mk 0x019E 0x019E [130, 0, 130],
  CaseRange.mk 0x019F 0x019F [0, 214, 0],
  CaseRange.mk 0x01A0 0x01A5 [UpperLower, UpperLower, UpperLower],
  CaseRange.mk 0x01A6 0x01A6 [0, 218, 0],
  CaseRange.mk 0x01A7 0x01A8 [UpperLower, UpperLower, UpperLower],
  CaseRange.mk 0x01A9 0x01A9 [0, 218, 0],
  CaseRange.mk 0x01AC 0x01AD [UpperLower, UpperLower, UpperLower],
  CaseRange.mk 0x01AE 0x01AE [0, 218, 0],
  CaseRange.mk 0x01AF 0x01B0 [UpperLower, UpperLower, UpperLower],
  CaseRange.mk 0x01B1 0x01B2 [0, 217, 0],
  CaseRange.mk 0x01B3 0x01B6 [UpperLower, UpperLower, UpperLower],
  CaseRange.mk 0x01B7 0x01B7 [0, 219, 0],
  CaseRange.mk 0x01B8 0x01B9 [UpperLower, UpperLower, UpperLower],
  CaseRange.mk 0x01BC 0x01BD [UpperLower, UpperLower, UpperLower],
  CaseRange.mk 0x01BF 0x01BF [56, 0, 56],
  CaseRange.mk 0x01C4 0x01C4 [0, 2, 1],
  CaseRange.mk 0x01C5 0x01C5 [-1, 1, 0],
  CaseRange.mk 0x01C6 0x01C6 [-2, 0, -1],
  CaseRange.mk 0x01C7 0x01C7 [0, 2, 1],
  CaseRange.mk 0x01C8 0x01C8 [-1, 1, 0],
  CaseRange.mk 0x01C9 0x01C9 [-2, 0, -1],
  CaseRange.mk 0x01CA 0x01CA [0, 2, 1],
  CaseRange.mk 0x01CB 0x01CB [-1, 1, 0],
  CaseRange.mk 0x01CC 0x01CC [-2, 0, -1],
  CaseRange.mk 0x01CD 0x01DC [UpperLower, UpperLower, UpperLower],
  CaseRange.mk 0x01DD 0x01DD [-79, 0, -79],
  CaseRange.mk 0x01DE 0x01EF [UpperLower, UpperLower, UpperLower],
  CaseRange.mk 0x01F1 0x01F1 [0, 2, 1],
  CaseRange.mk 0x01F2 0x01F2 [-1, 1, 0],
  CaseRange.mk 0x01F3 0x01F3 [-2, 0, -1],
  CaseRange.mk 0x01F4 0x01F5 [UpperLower, UpperLower, UpperLower],
  CaseRange.mk 0x01F6 0x01F6 [0, -97, 0],
  CaseRange.mk 0x01F7 0x01F7 [0, -56, 0],
  CaseRange.mk 0x01F8 0x021F [UpperLower, UpperLower, UpperLower],
  CaseRange.mk 0x0220 0x0220 [0, -130, 0],
  CaseRange.mk 0x0222 0x0233 [UpperLower, UpperLower, UpperLower],
  CaseRange.mk 0x023A 0x023A [0, 10795, 0],
  CaseRange.mk 0x023B 0x023C [UpperLower, UpperLower, UpperLower],
  CaseRange.mk 0x023D 0x023D [0, -163, 0],
  CaseRange.mk 0x023E 0x023E [0, 10792, 0],
  CaseRange.mk 0x023F 0x0240 [10815, 0, 10815],
  CaseRange.mk 0x0241 0x0242 [UpperLower, UpperLower, UpperLower],
  CaseRange.mk 0x0243 0x0243 [0, -195, 0],
  CaseRange.mk 0x0244 0x0244 [0, 69, 0],
  CaseRange.mk 0x0245 0x0245 [0, 71, 0],
  CaseRange.mk 0x0246 0x024F [UpperLower, UpperLower, UpperLower],
  CaseRange.mk 0x0250 0x0250 [10783, 0, 10783],
  CaseRange.mk 0x0251 0x0251 [10780, 0, 10780],
  CaseRange.mk 0x0252 0x0252 [10782, 0, 10782],
  CaseRange.mk 0x0253 0x0253 [-210, 0, -210],
  CaseRange.mk 0x0254 0x0254 [-206, 0, -206],
  CaseRange.mk 0x0256 0x0257 [-205, 0, -205],
  CaseRange.mk 0x0259 0x0259 [-202, 0, -202],
  CaseRange.mk 0x025B 0x025B [-203, 0, -203],
  CaseRange.mk 0x025C 0x025C [42319, 0, 42319],
  CaseRange.mk 0x0260 0x0260 [-205, 0, -205],
  CaseRange.mk 0x0261 0x0261 [42315, 0, 42315],
  CaseRange.mk 0x0263 0x0263 [-207, 0, -207],
  CaseRange.mk 0x0265 0x0265 [42280, 0, 42280],
  CaseRange.mk 0x0266 0x0266 [42308, 0, 42308],
  CaseRange.mk 0x0268 0x0268 [-209, 0, -209],
  CaseRange.mk 0x0269 0x0269 [-211, 0, -211],
  CaseRange.mk 0x026A 0x026A [42308, 0, 42308],
  CaseRange.mk 0x026B 0x026B [10743, 0, 10743],
  CaseRange.mk 0x026C 0x026C [42305, 0, 42305],
  CaseRange.mk 0x026F 0x026F [-211, 0, -211],
  CaseRange.mk 0x0271 0x0271 [10749, 0, 10749],
  CaseRange.mk 0x0272 0x0272 [-213, 0, -213],
  CaseRange.mk 0x0275 0x0275 [-214, 0, -214],
  CaseRange.mk 0x027D 0x027D [10727, 0, 10727],
  CaseRange.mk 0x0280 0x0280 [-218, 0, -218],
  CaseRange.mk 0x0282 0x0282 [42307, 0, 42307],
  CaseRange.mk 0x0283 0x0283 [-218, 0, -218],
  CaseRange.mk 0x0287 0x0287 [42282, 0, 42282],
  CaseRange.mk 0x0288 0x0288 [-218, 0, -218],
  CaseRange.mk 0x0289 0x0289 [-69, 0, -69],
  CaseRange.mk 0x028A 0x028B [-217, 0, -217],
  CaseRange.mk 0x028C 0x028C [-71, 0, -71],
  CaseRange.mk 0x0292 0x0292 [-219, 0, -219],
  CaseRange.mk 0x029D 0x029D [42261, 0, 42261],
  CaseRange.mk 0x029E 0x029E [42258, 0, 42258],
  CaseRange.mk 0x0345 0x0345 [84, 0, 84],
  CaseRange.mk 0x0370 0x0373 [UpperLower, UpperLower, UpperLower],
  CaseRange.mk 0x0376 0x0377 [UpperLower, UpperLower, UpperLower],
  CaseRange.mk 0x037B 0x037D [130, 0, 130],
  CaseRange.mk 0x037F 0x037F [0, 116, 0],
  CaseRange.mk 0x0386 0x0386 [0, 38, 0],
  CaseRange.mk 0x0388 0x038A [0, 37, 0],
  CaseRange.mk 0x038C 0x038C [0, 64, 0],
  CaseRange.mk 0x038E 0x038F [0, 63, 0],
  CaseRange.mk 0x0391 0x03A1 [0, 32, 0],
  CaseRange.mk 0x03A3 0x03AB [0, 32, 0],
  CaseRange.mk 0x03AC 0x03AC [-38, 0, -38],
  CaseRange.mk 0x03AD 0x03AF [-37, 0, -37],
  CaseRange.mk 0x03B1 0x03C1 [-32, 0, -32],
  CaseRange.mk 0x03C2 0x03C2 [-31, 0, -31],
  CaseRange.mk 0x03C3 0x03CB [-32, 0, -32],
  CaseRange.mk 0x03CC 0x03CC [-64, 0, -64],
  CaseRange.mk 0x03CD 0x03CE [-63, 0, -63],
  CaseRange.mk 0x03CF 0x03CF [0, 8, 0],
  CaseRange.mk 0x03D0 0x03D0 [-62, 0, -62],
  CaseRange.mk 0x03D1 0x03D1 [-57, 0, -57],
  CaseRange.mk 0x03D5 0x03D5 [-47, 0, -47],
  CaseRange.mk 0x03D6 0x03D6 [-54, 0, -54],
  CaseRange.mk 0x03D7 0x03D7 [-8, 0, -8],
  CaseRange.mk 0x03D8 0x03EF [UpperLower, UpperLower, UpperLower],
  CaseRange.mk 0x03F0 0x03F0 [-86, 0, -86],
  CaseRange.mk 0x03F1 0x03F1 [-80, 0, -80],
  CaseRange.mk 0x03F2 0x03F2 [7, 0, 7],
  CaseRange.mk 0x03F3 0x03F3 [-116, 0, -116],
  CaseRange.mk 0x03F4 0x03F4 [0, -60, 0],
  CaseRange.mk 0x03F5 0x03F5 [-96, 0, -96],
  CaseRange.mk 0x03F7 0x03F8 [UpperLower, UpperLower, UpperLower],
  CaseRange.mk 0x03F9 0x03F9 [0, -7, 0],
  CaseRange.mk 0x03FA 0x03FB [UpperLower, UpperLower, UpperLower],
  CaseRange.mk 0x03FD 0x03FF [0, -130, 0],
  CaseRange.mk 0x0400 0x040F [0, 80, 0],
  CaseRange.mk 0x0410 0x042F [0, 32, 0],
  CaseRange.mk 0x0430 0x044F [-32, 0, -32],
  CaseRange.mk 0x0450 0x045F [-80, 0, -80],
  CaseRange.mk 0x0460 0x0481 [UpperLower, UpperLower, UpperLower],
  CaseRange.mk 0x048A 0x04BF [UpperLower, UpperLower, UpperLower],
  CaseRange.mk 0x04C0 0x04C0 [0, 15, 0],
  CaseRange.mk 0x04C1 0x04CE [UpperLower, UpperLower, UpperLower],
  CaseRange.mk 0x04CF 0x04CF [-15, 0, -15],
  CaseRange.mk 0x04D0 0x052F [UpperLower, UpperLower, UpperLower],
  CaseRange.mk 0x0531 0x0556 [0, 48, 0],
  CaseRange.mk 0x0561 0x0586 [-48, 0, -48],
  CaseRange.mk 0x10A0 0x10C5 [0, 7264, 0],
  CaseRange.mk 0x10C7 0x10C7 [0, 7264, 0],
  CaseRange.mk 0x10CD 0x10CD [0, 7264, 0],
  CaseRange.mk 0x10D0 0x10FA [3008, 0, 0],
  CaseRange.mk 0x10FD 0x10FF [3008, 0, 0],
  CaseRange.mk 0x13A0 0x13EF [0, 38864, 0],
  CaseRange.mk 0x13F0 0x13F5 [0, 8, 0],
  CaseRange.mk 0x13F8 0x13FD [-8, 0, -8],
  CaseRange.mk 0x1C80 0x1C80 [-6254, 0, -6254],
  CaseRange.mk 0x1C81 0x1C81 [-6253, 0, -6253],
  CaseRange.mk 0x1C82 0x1C82 [-6244, 0, -6244],
  CaseRange.mk 0x1C83 0x1C84 [-6242, 0, -6242],
  CaseRange.mk 0x1C85 0x1C85 [-6243, 0, -6243],
  CaseRange.mk 0x1C86 0x1C86 [-6236, 0, -6236],
  CaseRange.mk 0x1C87 0x1C87 [-6181, 0, -6181],
  CaseRange.mk 0x1C88 0x1C88 [35266, 0, 35266],
  CaseRange.mk 0x1C90 0x1CBA [0, -3008, 0],
  CaseRange.mk 0x1CBD 0x1CBF [0, -3008, 0],
  CaseRange.mk 0x1D79 0x1D79 [35332, 0, 35332],
  CaseRange.mk 0x1D7D 0x1D7D [3814, 0, 3814],
  CaseRange.mk 0x1D8E 0x1D8E [35384, 0, 35384],
  CaseRange.mk 0x1E00 0x1E95 [UpperLower, UpperLower, UpperLower],
  CaseRange.mk 0x1E9B 0x1E9B [-59, 0, -59],
  CaseRange.mk 0x1E9E 0x1E9E [0, -7615, 0],
  CaseRange.mk 0x1EA0 0x1EFF [UpperLower, UpperLower, UpperLower],
  CaseRange.mk 0x1F00 0x1F07 [8, 0, 8],
  CaseRange.mk 0x1F08 0x1F0F [0, -8, 0],
  CaseRange.mk 0x1F10 0x1F15 [8, 0, 8],
  CaseRange.mk 0x1F18 0x1F1D [0, -8, 0],
  CaseRange.mk 0x1F20 0x1F27 [8, 0, 8],
  CaseRange.mk 0x1F28 0x1F2F [0, -8, 0],
  CaseRange.mk 0x1F30 0x1F37 [8, 0, 8],
  CaseRange.mk 0x1F38 0x1F3F [0, -8, 0],
  CaseRange.mk 0x1F40 0x1F45 [8, 0, 8],
  CaseRange.mk 0x1F48 0x1F4D [0, -8, 0],
  CaseRange.mk 0x1F51 0x1F51 [8, 0, 8],
  CaseRange.mk 0x1F53 0x1F53 [8, 0, 8],
  CaseRange.mk 0x1F55 0x1F55 [8, 0, 8],
  CaseRange.mk 0x1F57 0x1F57 [8, 0, 8],
  CaseRange.mk 0x1F59 0x1F59 [0, -8, 0],
  CaseRange.mk 0x1F5B 0x1F5B [0, -8, 0],
  CaseRange.mk 0x1F5D 0x1F5D [0, -8, 0],
  CaseRange.mk 0x1F5F 0x1F5F [0, -8, 0],
  CaseRange.mk 0x1F60 0x1F67 [8, 0, 8],
  CaseRange.mk 0x1F68 0x1F6F [0, -8, 0],
  CaseRange.mk 0x1F70 0x1F71 [74, 0, 74],
  CaseRange.mk 0x1F72 0x1F75 [86, 0, 86],
  CaseRange.mk 0x1F76 0x1F77 [100, 0, 100],
  CaseRange.mk 0x1F78 0x1F79 [128, 0, 128],
  CaseRange.mk 0x1F7A 0x1F7B [112, 0, 112],
  CaseRange.mk 0x1F7C 0x1F7D [126, 0, 126],
  CaseRange.mk 0x1F80 0x1F87 [8, 0, 8],
  CaseRange.mk 0x1F88 0x1F8F [0, -8, 0],
  CaseRange.mk 0x1F90 0x1F97 [8, 0, 8],
  CaseRange.mk 0x1F98 0x1F9F [0, -8, 0],
  CaseRange.mk 0x1FA0 0x1FA7 [8, 0, 8],
  CaseRange.mk 0x1FA8 0x1FAF [0, -8, 0],
  CaseRange.mk 0x1FB0 0x1FB1 [8, 0, 8],
  CaseRange.mk 0x1FB3 0x1FB3 [9, 0, 9],
  CaseRange.mk 0x1FB8 0x1FB9 [0, -8, 0],
  CaseRange.mk 0x1FBA 0x1FBB [0, -74, 0],
  CaseRange.mk 0x1FBC 0x1FBC [0, -9, 0],
  CaseRange.mk 0x1FBE 0x1FBE [-7205, 0, -7205],
  CaseRange.mk 0x1FC3 0x1FC3 [9, 0, 9],
  CaseRange.mk 0x1FC8 0x1FCB [0, -86, 0],
  CaseRange.mk 0x1FCC 0x1FCC [0, -9, 0],
  CaseRange.mk 0x1FD0 0x1FD1 [8, 0, 8],
  CaseRange.mk 0x1FD8 0x1FD9 [0, -8, 0],
  CaseRange.mk 0x1FDA 0x1FDB [0, -100, 0],
  CaseRange.mk 0x1FE0 0x1FE1 [8, 0, 8],
  CaseRange.mk 0x1FE5 0x1FE5 [7, 0, 7],
  CaseRange.mk 0x1FE8 0x1FE9 [0, -8, 0],
  CaseRange.mk 0x1FEA 0x1FEB [0, -112, 0],
  CaseRange.mk 0x1FEC 0x1FEC [0, -7, 0],
  CaseRange.mk 0x1FF3 0x1FF3 [9, 0, 9],
  CaseRange.mk 0x1FF8 0x1FF9 [0, -128, 0],
  CaseRange.mk 0x1FFA 0x1FFB [0, -126, 0],
  CaseRange.mk 0x1FFC 0x1FFC [0, -9, 0],
  CaseRange.mk 0x2126 0x2126 [0, -7517, 0],
  CaseRange.mk 0x212A 0x212A [0, -8383, 0],
  CaseRange.mk 0x212B 0x212B [0, -8262, 0],
  CaseRange.mk 0x2132 0x2132 [0, 28, 0],
  CaseRange.mk 0x214E 0x214E [-28, 0, -28],
  CaseRange.mk 0x2160 0x216F [0, 16, 0],
  CaseRange.mk 0x2170 0x217F [-16, 0, -16],
  CaseRange.mk 0x2183 0x2184 [UpperLower, UpperLower, UpperLower],
  CaseRange.mk 0x24B6 0x24CF [0, 26, 0],
  CaseRange.mk 0x24D0 0x24E9 [-26, 0, -26],
  CaseRange.mk 0x2C00 0x2C2F [0, 48, 0],
  CaseRange.mk 0x2C30 0x2C5F [-48, 0, -48],
  CaseRange.mk 0x2C60 0x2C61 [UpperLower, UpperLower, UpperLower],
  CaseRange.mk 0x2C62 0x2C62 [0, -10743, 0],
  CaseRange.mk 0x2C63 0x2C63 [0, -3814, 0],
  CaseRange.mk 0x2C64 0x2C64 [0, -10727, 0],
  CaseRange.mk 0x2C65 0x2C65 [-10795, 0, -10795],
  CaseRange.mk 0x2C66 0x2C66 [-10792, 0, -10792],
  CaseRange.mk 0x2C67 0x2C6C [UpperLower, UpperLower, UpperLower],
  CaseRange.mk 0x2C6D 0x2C6D [0, -10780, 0],
  CaseRange.mk 0x2C6E 0x2C6E [0, -10749, 0],
  CaseRange.mk 0x2C6F 0x2C6F [0, -10783, 0],
  CaseRange.mk 0x2C70 0x2C70 [0, -10782, 0],
  CaseRange.mk 0x2C72 0x2C73 [UpperLower, UpperLower, UpperLower],
  CaseRange.mk 0x2C75 0x2C76 [UpperLower, UpperLower, UpperLower],
  CaseRange.mk 0x2C7E 0x2C7F [0, -10815, 0],
  CaseRange.mk 0x2C80 0x2CE3 [UpperLower, UpperLower, UpperLower],
  CaseRange.mk 0x2CEB 0x2CEE [UpperLower, UpperLower, UpperLower],
  CaseRange.mk 0x2CF2 0x2CF3 [UpperLower, UpperLower, UpperLower],
  CaseRange.mk 0x2D00 0x2D25 [-7264, 0, -7264],
  CaseRange.mk 0x2D27 0x2D27 [-7264, 0, -7264],
  CaseRange.mk 0x2D2D 0x2D2D [-7264, 0, -7264],
  CaseRange.mk 0xA640 0xA66D [UpperLower, UpperLower, UpperLower],
  CaseRange.mk 0xA680 0xA69B [UpperLower, UpperLower, UpperLower],
  CaseRange.mk 0xA722 0xA72F [UpperLower, UpperLower, UpperLower],
  CaseRange.mk 0xA732 0xA76F [UpperLower, UpperLower, UpperLower],
  CaseRange.mk 0xA779 0xA77C [UpperLower, UpperLower, UpperLower],
  CaseRange.mk 0xA77D 0xA77D [0, -35332, 0],
  CaseRange.mk 0xA77E 0xA787 [UpperLower, UpperLower, UpperLower],
  CaseRange.mk 0xA78B 0xA78C [UpperLower, UpperLower, UpperLower],
  CaseRange.mk 0xA78D 0xA78D [0, -42280, 0],
  CaseRange.mk 0xA790 0xA793 [UpperLower, UpperLower, UpperLower],
  CaseRange.mk 0xA794 0xA794 [48, 0, 48],
  CaseRange.mk 0xA796 0xA7A9 [UpperLower, UpperLower, UpperLower],
  CaseRange.mk 0xA7AA 0xA7AA [0, -42308, 0],
  CaseRange.mk 0xA7AB 0xA7AB [0, -42319, 0],
  CaseRange.mk 0xA7AC 0xA7AC [0, -42315, 0],
  CaseRange.mk 0xA7AD 0xA7AD [0, -42305, 0],
  CaseRange.mk 0xA7AE 0xA7AE [0, -42308, 0],
  CaseRange.mk 0xA7B0 0xA7B0 [0, -42258, 0],
  CaseRange.mk 0xA7B1 0xA7B1 [0, -42282, 0],
  CaseRange.mk 0xA7B2 0xA7B2 [0, -42261, 0],
  CaseRange.mk 0xA7B3 0xA7B3 [0, 928, 0],
  CaseRange.mk 0xA7B4 0xA7C3 [UpperLower, UpperLower, UpperLower],
  CaseRange.mk 0xA7C4 0xA7C4 [0, -48, 0],
  CaseRange.mk 0xA7C5 0xA7C5 [0, -42307, 0],
  CaseRange.mk 0xA7C6 0xA7C6 [0, -35384, 0],
  CaseRange.mk 0xA7C7 0xA7CA [UpperLower, UpperLower, UpperLower],
  CaseRange.mk 0xA7D0 0xA7D1 [UpperLower, UpperLower, UpperLower],
  CaseRange.mk 0xA7D6 0xA7D9 [UpperLower, UpperLower, UpperLower],
  CaseRange.mk 0xA7F5 0xA7F6 [UpperLower, UpperLower, UpperLower],
  CaseRange.mk 0xAB53 0xAB53 [-928, 0, -928],
  CaseRange.mk 0xAB70 0xABBF [-38864, 0, -38864],
  CaseRange.mk 0xFF21 0xFF3A [0, 32, 0],
  CaseRange.mk 0xFF41 0xFF5A [-32, 0, -32],
  CaseRange.mk 0x10400 0x10427 [0, 40, 0],
  CaseRange.mk 0x10428 0x1044F [-40, 0, -40],
  CaseRange.mk 0x104B0 0x104D3 [0, 40, 0],
  CaseRange.mk 0x104D8 0x104FB [-40, 0, -40],
  CaseRange.mk 0x10570 0x1057A [0, 39, 0],
  CaseRange.mk 0x1057C 0x1058A [0, 39, 0],
  CaseRange.mk 0x1058C 0x10592 [0, 39, 0],
  CaseRange.mk 0x10594 0x10595 [0, 39, 0],
  CaseRange.mk 0x10597 0x105A1 [-39, 0, -39],
  CaseRange.mk 0x105A3 0x105B1 [-39, 0, -39],
  CaseRange.mk 0x105B3 0x105B9 [-39, 0, -39],
  CaseRange.mk 0x105BB 0x105BC [-39, 0, -39],
  CaseRange.mk 0x10C80 0x10CB2 [0, 64, 0],
  CaseRange.mk 0x10CC0 0x10CF2 [-64, 0, -64],
  CaseRange.mk 0x118A0 0x118BF [0, 32, 0],
  CaseRange.mk 0x118C0 0x118DF [-32, 0, -32],
  CaseRange.mk 0x16E40 0x16E5F [0, 32, 0],
  CaseRange.mk 0x16E60 0x16E7F [-32, 0, -32],
  CaseRange.mk 0x1E900 0x1E921 [0, 34, 0],
  CaseRange.mk 0x1E922 0x1E943 [-34, 0, -34]
]

/-- The binary search of `unicode.to` over `caseRange[lo:hi]`.  Each iteration
shrinks `hi - lo`, so `fuel > hi - lo` is never used up. -/
def toSearch (_case : Nat) (r : Int) (caseRange : List CaseRange) :
    Nat → Nat → Nat → Int × Bool
  | 0, _, _ => (r, false)
  | fuel + 1, lo, hi =>
    if lo < hi then
      let m := (lo + hi) / 2
      match caseRange[m]? with
      | none => (r, false)
      | some cr =>
        if (cr.Lo : Int) ≤ r ∧ r ≤ (cr.Hi : Int) then
          let delta := cr.Delta.getD _case 0
          if delta > MaxRune then
            -- rune(cr.Lo) + ((r-rune(cr.Lo))&^1 | rune(_case&1))
            ((cr.Lo : Int) + ((r - (cr.Lo : Int)) / 2 * 2 + ((_case % 2 : Nat) : Int)), true)
          else
            (r + delta, true)
        else if r < (cr.Lo : Int) then
          toSearch _case r caseRange fuel lo m
        else
          toSearch _case r caseRange fuel (m + 1) hi
    else (r, false)

/-- Go `unicode.to` (a reserved word here, hence `to_`): maps the rune using the
specified case mapping, and reports whether a mapping was found. -/
def to_ (_case : Nat) (r : Int) (caseRange : List CaseRange) : Int × Bool :=
  if MaxCase ≤ _case then (0xFFFD, false)
  else toSearch _case r caseRange (caseRange.length + 1) 0 caseRange.length

/-- Go `unicode.To`: maps the rune to the specified case. -/
def To (_case : Nat) (r : Int) : Int :=
  (to_ _case r CaseRanges).1

/-- Go `unicode.ToUpper`. -/
def ToUpper (r : Int) : Int :=
  if r ≤ MaxASCII then
    if 0x61 ≤ r ∧ r ≤ 0x7A then r - (0x61 - 0x41) else r
  else To UpperCase r

/-- Go `unicode.ToLower`. -/
def ToLower (r : Int) : Int :=
  if r ≤ MaxASCII then
    if 0x41 ≤ r ∧ r ≤ 0x5A then r + (0x61 - 0x41) else r
  else To LowerCase r

end unicode

/-! ## Package `strings` -/

namespace strings

/-- The second loop of `strings.Map`: every rune of the rest of the string is
mapped and, unless negative, written to the builder. -/
def mapRest (mapping : Int → Int) : Nat → GoString → GoString
  | 0, _ => []
  | _ + 1, [] => []
  | fuel + 1, b :: t =>
    let cw := utf8.DecodeRuneInString (b :: t)
    let r := mapping cw.1
    (if r ≥ 0 then utf8.AppendRune [] r else []) ++ mapRest mapping fuel ((b :: t).drop cw.2)

/-- The first loop of `strings.Map`, returning the whole result: runes that the
mapping leaves unchanged are kept as their original bytes; at the first rune
that changes (or the first invalid byte) the mapped rune is written and the
second loop takes over.  When nothing changes the result is the input. -/
def mapScan (mapping : Int → Int) : Nat → GoString → GoString
  | 0, _ => []
  | _ + 1, [] => []
  | fuel + 1, b :: t =>
    let cw := utf8.DecodeRuneInString (b :: t)
    let c := cw.1
    let r := mapping c
    if r = c ∧ c ≠ utf8.RuneError then
      (b :: t).take cw.2 ++ mapScan mapping fuel ((b :: t).drop cw.2)
    else
      let width : Int := if c = utf8.RuneError then (cw.2 : Int) else utf8.RuneLen c
      if c = utf8.RuneError ∧ width ≠ 1 ∧ r = c then
        (b :: t).take cw.2 ++ mapScan mapping fuel ((b :: t).drop cw.2)
      else
        (if r ≥ 0 then utf8.AppendRune [] r else [])
          ++ mapRest mapping fuel ((b :: t).drop width.toNat)

/-- Go `strings.Map`: a copy of `s` with all its characters modified according to
the mapping function.  Every decoding step consumes at least one byte, so
`len(s)` iterations suffice. -/
def Map (mapping : Int → Int) (s : GoString) : GoString :=
  mapScan mapping s.length s

/-- Go `strings.ToLower`: ASCII-only strings are lower-cased byte by byte (and
returned as they are when they hold no upper-case letter); any other string
goes through `Map(unicode.ToLower, s)`. -/
def ToLower (s : GoString) : GoString :=
  let isASCII := s.all (fun c => decide (c.val < utf8.RuneSelf))
  let hasUpper := s.any (fun c => decide (0x41 ≤ c.val ∧ c.val ≤ 0x5A))
  if isASCII then
    if ¬ hasUpper then s
    else s.map (fun c => if 0x41 ≤ c.val ∧ c.val ≤ 0x5A then byte (c.val + (0x61 - 0x41)) else c)
  else Map unicode.ToLower s

/-- Go `strings.ToUpper`: ASCII-only strings are upper-cased byte by byte (and
returned as they are when they hold no lower-case letter); any other string
goes through `Map(unicode.ToUpper, s)`. -/
def ToUpper (s : GoString) : GoString :=
  let isASCII := s.all (fun c => decide (c.val < utf8.RuneSelf))
  let hasLower := s.any (fun c => decide (0x61 ≤ c.val ∧ c.val ≤ 0x7A))
  if isASCII then
    if ¬ hasLower then s
    else s.map (fun c => if 0x61 ≤ c.val ∧ c.val ≤ 0x7A then byte (c.val - (0x61 - 0x41)) else c)
  else Map unicode.ToUpper s

end strings

/-- A Go string literal: the UTF-8 encoding of its characters. -/
def lit (s : String) : GoString :=
  s.toList.foldl (fun p c => utf8.AppendRune p (c.toNat : Int)) []

/-! ## Package `core` (`dbee/core/types.go`) -/

/-- Go `type StructureType int`. -/
structure StructureType where
  val : Int
deriving DecidableEq

def StructureTypeNone : StructureType := ⟨0⟩
def StructureTypeTable : StructureType := ⟨1⟩
def StructureTypeView : StructureType := ⟨2⟩

/-- Go `func (s StructureType) String() string`. -/
def StructureType.String (s : StructureType) : GoString :=
  if s = StructureTypeNone then lit ""
  else if s = StructureTypeTable then lit "table"
  else if s = StructureTypeView then lit "view"
  else lit ""

/-- Go `func StructureTypeFromString(s string) StructureType`. -/
def StructureTypeFromString (s : GoString) : StructureType :=
  let l := strings.ToLower s
  if l = lit "table" then StructureTypeTable
  else if l = lit "view" then StructureTypeView
  else StructureTypeNone

/-! ## The rest of `types.go`, and the contracts of its interfaces -/

/-- Go `type SchemaType int`. -/
structure SchemaType where
  val : Int
deriving DecidableEq

def SchemaFul : SchemaType := ⟨0⟩
def SchemaLess : SchemaType := ⟨1⟩

/-- Go `FormatterOptions`: options for formatters. -/
structure FormatterOptions where
  SchemaType : SchemaType
  ChunkStart : Int
deriving DecidableEq

/-- A value of a row, Go `any`: the kinds a reference formatter renders, and
`other` for any kind it cannot represent. -/
inductive Value where
  | null : Value
  | int : Int → Value
  | str : GoString → Value
  | other : Nat → Value
deriving DecidableEq

/-- Go `type Row []any`. -/
abbrev Row := List Value

/-- Go `type Header []string`. -/
abbrev Header := List GoString

/-- The error kind of `ResultStream.Next` named by the spec. -/
inductive StreamError where
  | ExhaustedOrBackendError : StreamError
deriving DecidableEq

/-- The error kinds of `Formatter.Format` named by the spec. -/
inductive FormatError where
  | EncodingError : FormatError
  | ArityMismatch : FormatError
deriving DecidableEq

/-- Modelled from the spec: an implementation of the interface `ResultStream`,
of which `types.go` declares the method set only.  The stream holds its
buffered rows and a cursor, the number of rows already handed out (spec 4.1,
"a Result Stream exclusively owns its internal cursor"). -/
structure BufferedStream where
  SchemaType : SchemaType
  Header : Header
  rows : List Row
  cursor : Nat
deriving DecidableEq

/-- Modelled from the spec: `HasNext() -> bool` "reports whether a subsequent
`Next` call is expected to succeed"; the stream after the call is returned
with the answer. -/
def BufferedStream.HasNext (s : BufferedStream) : Bool × BufferedStream :=
  (decide (s.cursor < s.rows.length), s)

/-- Modelled from the spec: `Next() -> (Row, error)` "advances the cursor by
exactly one row and returns it, or fails with an `ExhaustedOrBackendError`
kind when no more rows exist". -/
def BufferedStream.Next (s : BufferedStream) : Except StreamError Row × BufferedStream :=
  match s.rows[s.cursor]? with
  | some row => (Except.ok row, { s with cursor := s.cursor + 1 })
  | none => (Except.error StreamError.ExhaustedOrBackendError, s)

/-- The stream after `k` calls of `Next`. -/
def BufferedStream.afterNext : Nat → BufferedStream → BufferedStream
  | 0, s => s
  | k + 1, s => BufferedStream.afterNext k (s.Next).2

/-- Decimal digits of a natural number, most significant first. -/
def decimalDigits : Nat → Nat → GoString
  | 0, _ => []
  | fuel + 1, n =>
    if n < 10 then [byte (0x30 + n)]
    else decimalDigits fuel (n / 10) ++ [byte (0x30 + n % 10)]

/-- Modelled from the spec: how the reference CSV formatter of spec 8.6 writes
one value; a value it cannot represent is an `EncodingError` (spec 4.2). -/
def encodeValue : Value → Except FormatError GoString
  | Value.null => Except.ok []
  | Value.int n =>
    Except.ok ((if n < 0 then [0x2D] else []) ++ decimalDigits (n.natAbs + 1) n.natAbs)
  | Value.str s => Except.ok s
  | Value.other _ => Except.error FormatError.EncodingError

/-- Modelled from the spec: the values of a row, separated by commas. -/
def encodeRow : Row → Except FormatError GoString
  | [] => Except.ok []
  | [v] => encodeValue v
  | v :: vs =>
    match encodeValue v, encodeRow vs with
    | Except.ok a, Except.ok b => Except.ok (a ++ [0x2C] ++ b)
    | Except.error e, _ => Except.error e
    | _, Except.error e => Except.error e

/-- Modelled from the spec: the rows of a batch, one line each. -/
def encodeRows : List Row → Except FormatError GoString
  | [] => Except.ok []
  | r :: rs =>
    match encodeRow r, encodeRows rs with
    | Except.ok a, Except.ok b => Except.ok (a ++ [0x0A] ++ b)
    | Except.error e, _ => Except.error e
    | _, Except.error e => Except.error e

/-- The names of a header, separated by commas. -/
def joinHeader : Header → GoString
  | [] => []
  | [h] => h
  | h :: hs => h ++ [0x2C] ++ joinHeader hs

/-- Modelled from the spec: `Format(header, rows, opts) -> (bytes, error)` of
the interface `Formatter`, of which `types.go` declares the method only, as
the reference CSV formatter of spec 8.6.  It "fails with ... an
`ArityMismatch` kind if Row length disagrees with Header length for a
SchemaFul batch with non-empty Header" (spec 4.2, and 8.7 without a
condition on the values, so the lengths are checked before any value is
encoded), and with `EncodingError` on a value it cannot represent.  The
header line is written for the chunk that starts the result. -/
def Format (header : Header) (rows : List Row) (opts : FormatterOptions) :
    Except FormatError GoString :=
  if opts.SchemaType = SchemaFul ∧ header ≠ [] ∧
      rows.any (fun r => decide (r.length ≠ header.length)) = true then
    Except.error FormatError.ArityMismatch
  else
    match encodeRows rows with
    | Except.error e => Except.error e
    | Except.ok body =>
      Except.ok ((if opts.ChunkStart = 0 ∧ header ≠ [] then joinHeader header ++ [0x0A] else [])
        ++ body)

/-! ## Proof devices -/

/-- A rune that `utf8.AppendRune` encodes as itself: a Unicode scalar value. -/
def ValidRune (r : Int) : Prop :=
  0 ≤ r ∧ r ≤ 0x10FFFF ∧ ¬ (0xD800 ≤ r ∧ r ≤ 0xDFFF)

instance (r : Int) : Decidable (ValidRune r) := by
  unfold ValidRune; infer_instance

/-- The runes of a string in order, as `for _, c := range s` yields them:
`utf8.RuneError` stands for every byte that starts no valid encoding. -/
def runesFuel : Nat → GoString → List Int
  | 0, _ => []
  | _ + 1, [] => []
  | fuel + 1, b :: t =>
    let cw := utf8.DecodeRuneInString (b :: t)
    cw.1 :: runesFuel fuel ((b :: t).drop cw.2)

/-- The runes of a string, `[]rune(s)`. -/
def runes (s : GoString) : List Int := runesFuel s.length s

/-- The bytes a builder holds after `WriteRune` of each non-negative rune. -/
def encodeAll : List Int → GoString
  | [] => []
  | r :: rs => (if r ≥ 0 then utf8.AppendRune [] r else []) ++ encodeAll rs

/-- The three outcomes of decoding a non-empty string. -/
def DecodeOutcome (b : Byte) (t : GoString) : Prop :=
  (b.val < 0x80 ∧ utf8.DecodeRuneInString (b :: t) = ((b.val : Int), 1)) ∨
  (0x80 ≤ b.val ∧ utf8.DecodeRuneInString (b :: t) = (utf8.RuneError, 1)) ∨
  (∃ (c : Nat) (w : Nat), utf8.DecodeRuneInString (b :: t) = ((c : Int), w) ∧
    0x80 ≤ c ∧ ValidRune c ∧ 2 ≤ w ∧ w ≤ (b :: t).length ∧
    (b :: t).take w = utf8.AppendRune [] (c : Int) ∧ utf8.RuneLen (c : Int) = (w : Int))

/-- The rune `WriteRune` puts in the builder for `r`. -/
def written (r : Int) : Int := if ValidRune r then r else utf8.RuneError

/-! ## The case tables -/

/-- The rune `unicode.to` returns for `r` when it lies in the range `e`. -/
def mapEntry (_case : Nat) (e : unicode.CaseRange) (r : Int) : Int :=
  if e.Delta.getD _case 0 > unicode.MaxRune then
    (e.Lo : Int) + ((r - (e.Lo : Int)) / 2 * 2 + ((_case % 2 : Nat) : Int))
  else r + e.Delta.getD _case 0

/-- Least value `mapEntry` takes on the range `e`. -/
def imgLo (_case : Nat) (e : unicode.CaseRange) : Int :=
  if e.Delta.getD _case 0 > unicode.MaxRune then (e.Lo : Int)
  else (e.Lo : Int) + e.Delta.getD _case 0

/-- A bound on the values `mapEntry` takes on the range `e`. -/
def imgHi (_case : Nat) (e : unicode.CaseRange) : Int :=
  if e.Delta.getD _case 0 > unicode.MaxRune then
    (e.Lo : Int) + (((e.Hi : Int) - (e.Lo : Int)) / 2 * 2 + ((_case % 2 : Nat) : Int))
  else (e.Hi : Int) + e.Delta.getD _case 0

/-- A range of `CaseRanges` passes if it lies within ASCII, or lower-cases
to no ASCII rune, or is one of the two single-rune ranges U+0130 (to `i`) and
U+212A (to `k`). -/
def lowerCheck (e : unicode.CaseRange) : Bool :=
  decide ((e.Hi : Int) < 0x80) || decide (0x80 ≤ imgLo 1 e) ||
  decide (e.Lo = 0x130 ∧ e.Hi = 0x130 ∧ e.Delta.getD 1 0 = -199) ||
  decide (e.Lo = 0x212A ∧ e.Hi = 0x212A ∧ e.Delta.getD 1 0 = -8383)

/-- A range of `CaseRanges` passes if it lies within ASCII, or upper-cases
to no ASCII rune, or is one of the two single-rune ranges U+0131 (to `I`) and
U+017F (to `S`). -/
def upperCheck (e : unicode.CaseRange) : Bool :=
  decide ((e.Hi : Int) < 0x80) || decide (0x80 ≤ imgLo 0 e) ||
  decide (e.Lo = 0x131 ∧ e.Hi = 0x131 ∧ e.Delta.getD 0 0 = -232) ||
  decide (e.Lo = 0x17F ∧ e.Hi = 0x17F ∧ e.Delta.getD 0 0 = -300)

/-- A range passes if no rune of it lower-cases to U+0130, the range of
U+0130 itself apart. -/
def lowerDotCheck (e : unicode.CaseRange) : Bool :=
  decide (imgHi 1 e < 0x130) || decide (0x130 < imgLo 1 e) ||
  decide (e.Lo = 0x130 ∧ e.Hi = 0x130)

/-- A range passes if no rune of it upper-cases to U+0130, the range of
U+0130 itself apart, which does not move it. -/
def upperDotCheck (e : unicode.CaseRange) : Bool :=
  decide (imgHi 0 e < 0x130) || decide (0x130 < imgLo 0 e) ||
  decide (e.Lo = 0x130 ∧ e.Hi = 0x130 ∧ e.Delta.getD 0 0 = 0)

/-- A range passes if its upper- and lower-case images are code points. -/
def boundsCheck (e : unicode.CaseRange) : Bool :=
  decide (0 ≤ imgLo 0 e) && decide (imgHi 0 e ≤ 0x10FFFF) &&
  decide (0 ≤ imgLo 1 e) && decide (imgHi 1 e ≤ 0x10FFFF)

/-! ## Inverting the case conversions -/

/-- The runes the words of this file are made of: ASCII and U+0130. -/
def Target (x : Int) : Prop := (0 ≤ x ∧ x < 0x80) ∨ x = 0x130

instance (x : Int) : Decidable (Target x) := by
  unfold Target; infer_instance

/-- The code points that `unicode.ToLower` maps to the target `x`. -/
def lowerPre (x : Int) : List Int :=
  if x = 0x130 then []
  else if x = 0x69 then [0x69, 0x49, 0x130]
  else if x = 0x6B then [0x6B, 0x4B, 0x212A]
  else if 0x61 ≤ x ∧ x ≤ 0x7A then [x, x - 0x20]
  else if 0x41 ≤ x ∧ x ≤ 0x5A then []
  else [x]

/-- The code points that `unicode.ToUpper` maps to the target `y`. -/
def upperPre (y : Int) : List Int :=
  if y = 0x130 then [0x130]
  else if y = 0x49 then [0x49, 0x69, 0x131]
  else if y = 0x53 then [0x53, 0x73, 0x17F]
  else if 0x41 ≤ y ∧ y ≤ 0x5A then [y, y + 0x20]
  else if 0x61 ≤ y ∧ y ≤ 0x7A then []
  else [y]

/-- All rune sequences that map, rune by rune, into the sequence `w`, given
the preimages `pre` of a single rune. -/
def preimages (pre : Int → List Int) : List Int → List (List Int)
  | [] => [[]]
  | x :: xs => (pre x).flatMap (fun r => (preimages pre xs).map (fun rs => r :: rs))

/-- The spellings of an ASCII lower-case word with each letter in either
case. -/
def asciiSpellings : GoString → List GoString
  | [] => [[]]
  | b :: t => (asciiSpellings t).flatMap (fun u => [b :: u, byte (b.val - 0x20) :: u])

/-- The eight strings that spell `v`, U+0130 (`İ`, bytes `C4 B0`), `e`, `w`,
with `v`, `e` and `w` in either case. -/
def dottedViewSpellings : List GoString :=
  [0x76, 0x56].flatMap (fun v => [0x65, 0x45].flatMap (fun e => [0x77, 0x57].map (fun w =>
    [v, 0xC4, 0xB0, e, w])))

/-- The eight strings that spell `v`, U+0131 (`ı`, bytes `C4 B1`), `e`, `w`,
with `v`, `e` and `w` in either case. -/
def dotlessViewSpellings : List GoString :=
  [0x76, 0x56].flatMap (fun v => [0x65, 0x45].flatMap (fun e => [0x77, 0x57].map (fun w =>
    [v, 0xC4, 0xB1, e, w])))

/-- The runes of `"table"`. -/
def tableRunes : List Int := [0x74, 0x61, 0x62, 0x6C, 0x65]

/-- The runes of `"view"`. -/
def viewRunes : List Int := [0x76, 0x69, 0x65, 0x77]

/-! ## UTF-8: decoding and encoding are inverse to each other -/

theorem byte_val (n : Nat) : (byte n).val = n % 256 := rfl

theorem first_class (b : Byte) :
    (b.val < 0x80 → utf8.first.getD b.val 0 = 0xF0) ∧
    (0x80 ≤ b.val ∧ b.val < 0xC2 ∨ 0xF5 ≤ b.val → utf8.first.getD b.val 0 = 0xF1) ∧
    (0xC2 ≤ b.val ∧ b.val < 0xE0 → utf8.first.getD b.val 0 = 0x02) ∧
    (b.val = 0xE0 → utf8.first.getD b.val 0 = 0x13) ∧
    (0xE1 ≤ b.val ∧ b.val < 0xED ∨ b.val = 0xEE ∨ b.val = 0xEF →
      utf8.first.getD b.val 0 = 0x03) ∧
    (b.val = 0xED → utf8.first.getD b.val 0 = 0x23) ∧
    (b.val = 0xF0 → utf8.first.getD b.val 0 = 0x34) ∧
    (0xF1 ≤ b.val ∧ b.val < 0xF4 → utf8.first.getD b.val 0 = 0x04) ∧
    (b.val = 0xF4 → utf8.first.getD b.val 0 = 0x44) := by
  revert b; decide

theorem appendRune_nat (i : Nat) (h : i < 4294967296) :
    utf8.AppendRune [] (i : Int) =
      if i ≤ 0x7F then [byte i] else utf8.appendRuneNonASCII [] i := by
  have e : ((i : Int) % 4294967296).toNat = i := by omega
  simp [utf8.AppendRune, e, utf8.rune1Max]

/-- The decoder with the class `x` of the first byte named. -/
theorem decode_unfold (b : Byte) (t : GoString) (x : Nat)
    (hx : utf8.first.getD b.val 0 = x) :
    utf8.DecodeRuneInString (b :: t) =
      if x ≥ 0xF0 then (if x % 2 = 0 then (b.val : Int) else utf8.RuneError, 1)
      else if t.length + 1 < x % 8 then (utf8.RuneError, 1)
      else if (t.getD 0 0).val < (utf8.acceptRanges.getD (x / 16) ⟨0, 0⟩).lo ∨
          (utf8.acceptRanges.getD (x / 16) ⟨0, 0⟩).hi < (t.getD 0 0).val then (utf8.RuneError, 1)
      else if x % 8 ≤ 2 then
        (((b.val % 32 * 64 + (t.getD 0 0).val % 64 : Nat) : Int), 2)
      else if (t.getD 1 0).val < 0x80 ∨ 0xBF < (t.getD 1 0).val then (utf8.RuneError, 1)
      else if x % 8 ≤ 3 then
        (((b.val % 16 * 4096 + (t.getD 0 0).val % 64 * 64 + (t.getD 1 0).val % 64 : Nat) : Int), 3)
      else if (t.getD 2 0).val < 0x80 ∨ 0xBF < (t.getD 2 0).val then (utf8.RuneError, 1)
      else (((b.val % 8 * 262144 + (t.getD 0 0).val % 64 * 4096 + (t.getD 1 0).val % 64 * 64
              + (t.getD 2 0).val % 64 : Nat) : Int), 4) := by
  simp only [utf8.DecodeRuneInString, List.length_cons, List.getD_cons_zero, List.getD_cons_succ,
    hx, utf8.as, utf8.locb, utf8.hicb]
  have : ¬ (t.length + 1 < 1) := by omega
  simp only [this, if_false]

theorem acceptRanges_getD :
    utf8.acceptRanges.getD 0 ⟨0, 0⟩ = ⟨0x80, 0xBF⟩ ∧
    utf8.acceptRanges.getD 1 ⟨0, 0⟩ = ⟨0xA0, 0xBF⟩ ∧
    utf8.acceptRanges.getD 2 ⟨0, 0⟩ = ⟨0x80, 0x9F⟩ ∧
    utf8.acceptRanges.getD 3 ⟨0, 0⟩ = ⟨0x90, 0xBF⟩ ∧
    utf8.acceptRanges.getD 4 ⟨0, 0⟩ = ⟨0x80, 0x8F⟩ := by
  decide

theorem enc2 (b b1 : Byte) (h : 0xC2 ≤ b.val ∧ b.val < 0xE0)
    (h1 : 0x80 ≤ b1.val ∧ b1.val ≤ 0xBF) :
    utf8.AppendRune [] ((b.val % 32 * 64 + b1.val % 64 : Nat) : Int) = [b, b1] := by
  rw [appendRune_nat _ (by omega)]
  have e1 : ¬ (b.val % 32 * 64 + b1.val % 64 ≤ 0x7F) := by omega
  have e2 : b.val % 32 * 64 + b1.val % 64 ≤ 0x7FF := by omega
  simp only [e1, if_false, utf8.appendRuneNonASCII, utf8.rune2Max, e2, if_true, List.nil_append,
    utf8.t2, utf8.tx]
  congr 1
  · apply Fin.ext; rw [byte_val]; omega
  · congr 1
    apply Fin.ext; rw [byte_val]; omega

theorem enc3 (b b1 b2 : Byte) (h : 0xE0 ≤ b.val ∧ b.val ≤ 0xEF)
    (h1 : 0x80 ≤ b1.val ∧ b1.val ≤ 0xBF) (h2 : 0x80 ≤ b2.val ∧ b2.val ≤ 0xBF)
    (hc : 0x800 ≤ b.val % 16 * 4096 + b1.val % 64 * 64 + b2.val % 64)
    (hs : ¬ (0xD800 ≤ b.val % 16 * 4096 + b1.val % 64 * 64 + b2.val % 64 ∧
      b.val % 16 * 4096 + b1.val % 64 * 64 + b2.val % 64 ≤ 0xDFFF)) :
    utf8.AppendRune [] ((b.val % 16 * 4096 + b1.val % 64 * 64 + b2.val % 64 : Nat) : Int)
      = [b, b1, b2] := by
  rw [appendRune_nat _ (by omega)]
  generalize hcv : b.val % 16 * 4096 + b1.val % 64 * 64 + b2.val % 64 = c at hc hs ⊢
  have e1 : ¬ (c ≤ 0x7F) := by omega
  have e2 : ¬ (c ≤ 0x7FF) := by omega
  have e3 : ¬ (c > 0x10FFFF ∨ (0xD800 ≤ c ∧ c ≤ 0xDFFF)) := by omega
  have e4 : c ≤ 0xFFFF := by omega
  simp only [e1, if_false, utf8.appendRuneNonASCII, utf8.rune2Max, utf8.rune3Max, e2, e3, e4,
    if_true, List.nil_append, utf8.t3, utf8.tx, utf8.surrogateMin, utf8.surrogateMax]
  congr 1
  · apply Fin.ext; rw [byte_val]; omega
  · congr 1
    · apply Fin.ext; rw [byte_val]; omega
    · congr 1
      apply Fin.ext; rw [byte_val]; omega

theorem enc4 (b b1 b2 b3 : Byte) (h : 0xF0 ≤ b.val ∧ b.val ≤ 0xF7)
    (h1 : 0x80 ≤ b1.val ∧ b1.val ≤ 0xBF) (h2 : 0x80 ≤ b2.val ∧ b2.val ≤ 0xBF)
    (h3 : 0x80 ≤ b3.val ∧ b3.val ≤ 0xBF)
    (hc : 0x10000 ≤ b.val % 8 * 262144 + b1.val % 64 * 4096 + b2.val % 64 * 64 + b3.val % 64)
    (hm : b.val % 8 * 262144 + b1.val % 64 * 4096 + b2.val % 64 * 64 + b3.val % 64 ≤ 0x10FFFF) :
    utf8.AppendRune []
      ((b.val % 8 * 262144 + b1.val % 64 * 4096 + b2.val % 64 * 64 + b3.val % 64 : Nat) : Int)
      = [b, b1, b2, b3] := by
  rw [appendRune_nat _ (by omega)]
  generalize hcv : b.val % 8 * 262144 + b1.val % 64 * 4096 + b2.val % 64 * 64 + b3.val % 64 = c
    at hc hm ⊢
  have e1 : ¬ (c ≤ 0x7F) := by omega
  have e2 : ¬ (c ≤ 0x7FF) := by omega
  have e3 : ¬ (c > 0x10FFFF ∨ (0xD800 ≤ c ∧ c ≤ 0xDFFF)) := by omega
  have e4 : ¬ (c ≤ 0xFFFF) := by omega
  simp only [e1, if_false, utf8.appendRuneNonASCII, utf8.rune2Max, utf8.rune3Max, e2, e3, e4,
    List.nil_append, utf8.t4, utf8.tx, utf8.surrogateMin, utf8.surrogateMax]
  congr 1
  · apply Fin.ext; rw [byte_val]; omega
  · congr 1
    · apply Fin.ext; rw [byte_val]; omega
    · congr 1
      · apply Fin.ext; rw [byte_val]; omega
      · congr 1
        apply Fin.ext; rw [byte_val]; omega

theorem dec2 (b : Byte) (t : GoString) (hx : utf8.first.getD b.val 0 = 0x02)
    (hb : 0xC2 ≤ b.val ∧ b.val < 0xE0) : DecodeOutcome b t := by
  obtain ⟨a0, -⟩ := acceptRanges_getD
  unfold DecodeOutcome
  rw [decode_unfold b t _ hx]
  simp only [Nat.reduceMod, Nat.reduceDiv, a0]
  rcases t with _ | ⟨b1, t⟩
  · right; left
    exact ⟨by omega, by simp⟩
  · have hb1 := b1.isLt
    simp only [List.length_cons, List.getD_cons_zero]
    by_cases h1 : b1.val < 0x80 ∨ 0xBF < b1.val
    · right; left
      exact ⟨by omega, by simp [h1]⟩
    · right; right
      refine ⟨b.val % 32 * 64 + b1.val % 64, 2, by simp [h1], by omega, ?_, by omega,
        by simp, ?_, ?_⟩
      · unfold ValidRune; omega
      · rw [enc2 b b1 hb (by omega)]; simp
      · simp only [utf8.RuneLen, utf8.rune1Max, utf8.rune2Max, utf8.rune3Max, utf8.surrogateMin,
          utf8.surrogateMax, utf8.MaxRune]
        split_ifs <;> omega

theorem dec3 (b : Byte) (t : GoString) (x lo hi : Nat) (hx : utf8.first.getD b.val 0 = x)
    (hx8 : x % 8 = 3) (hxl : x < 0xF0)
    (ha : utf8.acceptRanges.getD (x / 16) ⟨0, 0⟩ = ⟨lo, hi⟩)
    (hb : 0xE0 ≤ b.val ∧ b.val ≤ 0xEF) (hlo : 0x80 ≤ lo) (hhi : hi ≤ 0xBF)
    (hv : ∀ b1 b2 : Nat, lo ≤ b1 → b1 ≤ hi → b2 < 64 →
      0x800 ≤ b.val % 16 * 4096 + b1 % 64 * 64 + b2 ∧
      ¬ (0xD800 ≤ b.val % 16 * 4096 + b1 % 64 * 64 + b2 ∧
        b.val % 16 * 4096 + b1 % 64 * 64 + b2 ≤ 0xDFFF)) :
    DecodeOutcome b t := by
  unfold DecodeOutcome
  rw [decode_unfold b t _ hx]
  have e0 : ¬ (x ≥ 0xF0) := by omega
  have e2 : ¬ (x % 8 ≤ 2) := by omega
  have e3 : x % 8 ≤ 3 := by omega
  simp only [e0, if_false, hx8, ha, e2, e3, if_true]
  rcases t with _ | ⟨b1, _ | ⟨b2, t⟩⟩
  · right; left
    exact ⟨by omega, by simp⟩
  · right; left
    exact ⟨by omega, by simp⟩
  · have hb1 := b1.isLt
    have hb2 := b2.isLt
    simp only [List.length_cons, List.getD_cons_zero, List.getD_cons_succ]
    by_cases h1 : b1.val < lo ∨ hi < b1.val
    · right; left
      exact ⟨by omega, by simp [h1]⟩
    by_cases h2 : b2.val < 0x80 ∨ 0xBF < b2.val
    · right; left
      exact ⟨by omega, by simp [h1, h2]⟩
    have hv1 := hv b1.val (b2.val % 64) (by omega) (by omega) (by omega)
    right; right
    refine ⟨b.val % 16 * 4096 + b1.val % 64 * 64 + b2.val % 64, 3, by simp [h1, h2], by omega,
      ?_, by omega, by simp, ?_, ?_⟩
    · unfold ValidRune; omega
    · rw [enc3 b b1 b2 hb (by omega) (by omega) hv1.1 hv1.2]; simp
    · simp only [utf8.RuneLen, utf8.rune1Max, utf8.rune2Max, utf8.rune3Max, utf8.surrogateMin,
        utf8.surrogateMax, utf8.MaxRune]
      split_ifs <;> omega

theorem dec4 (b : Byte) (t : GoString) (x lo hi : Nat) (hx : utf8.first.getD b.val 0 = x)
    (hx8 : x % 8 = 4) (hxl : x < 0xF0)
    (ha : utf8.acceptRanges.getD (x / 16) ⟨0, 0⟩ = ⟨lo, hi⟩)
    (hb : 0xF0 ≤ b.val ∧ b.val ≤ 0xF7) (hlo : 0x80 ≤ lo) (hhi : hi ≤ 0xBF)
    (hv : ∀ b1 b2 : Nat, lo ≤ b1 → b1 ≤ hi → b2 < 4096 →
      0x10000 ≤ b.val % 8 * 262144 + b1 % 64 * 4096 + b2 ∧
      b.val % 8 * 262144 + b1 % 64 * 4096 + b2 ≤ 0x10FFFF) :
    DecodeOutcome b t := by
  unfold DecodeOutcome
  rw [decode_unfold b t _ hx]
  have e0 : ¬ (x ≥ 0xF0) := by omega
  have e2 : ¬ (x % 8 ≤ 2) := by omega
  have e3 : ¬ (x % 8 ≤ 3) := by omega
  simp only [e0, if_false, hx8, ha, e2, e3]
  rcases t with _ | ⟨b1, _ | ⟨b2, _ | ⟨b3, t⟩⟩⟩
  · right; left
    exact ⟨by omega, by simp⟩
  · right; left
    exact ⟨by omega, by simp⟩
  · right; left
    exact ⟨by omega, by simp⟩
  · have hb1 := b1.isLt
    have hb2 := b2.isLt
    have hb3 := b3.isLt
    simp only [List.length_cons, List.getD_cons_zero, List.getD_cons_succ]
    by_cases h1 : b1.val < lo ∨ hi < b1.val
    · right; left
      exact ⟨by omega, by simp [h1]⟩
    by_cases h2 : b2.val < 0x80 ∨ 0xBF < b2.val
    · right; left
      exact ⟨by omega, by simp [h1, h2]⟩
    by_cases h3 : b3.val < 0x80 ∨ 0xBF < b3.val
    · right; left
      exact ⟨by omega, by simp [h1, h2, h3]⟩
    have hv1 := hv b1.val (b2.val % 64 * 64 + b3.val % 64) (by omega) (by omega) (by omega)
    right; right
    refine ⟨b.val % 8 * 262144 + b1.val % 64 * 4096 + b2.val % 64 * 64 + b3.val % 64, 4,
      by simp [h1, h2, h3], by omega, ?_, by omega, by simp, ?_, ?_⟩
    · unfold ValidRune; omega
    · rw [enc4 b b1 b2 b3 hb (by omega) (by omega) (by omega) (by omega) (by omega)]; simp
    · simp only [utf8.RuneLen, utf8.rune1Max, utf8.rune2Max, utf8.rune3Max, utf8.surrogateMin,
        utf8.surrogateMax, utf8.MaxRune]
      split_ifs <;> omega

/-- What `utf8.DecodeRuneInString` returns on a non-empty string: an ASCII
byte as itself, `RuneError` of width one on a byte that starts no valid
encoding, and otherwise a scalar value whose encoding is the prefix read. -/
theorem decode_cons (b : Byte) (t : GoString) : DecodeOutcome b t := by
  have hb := b.isLt
  obtain ⟨f0, f1, f2, f3, f4, f5, f6, f7, f8⟩ := first_class b
  obtain ⟨a0, a1, a2, a3, a4⟩ := acceptRanges_getD
  by_cases c0 : b.val < 0x80
  · left
    refine ⟨c0, ?_⟩
    rw [decode_unfold b t _ (f0 c0)]
    simp
  by_cases c1 : (0x80 ≤ b.val ∧ b.val < 0xC2 ∨ 0xF5 ≤ b.val)
  · right; left
    refine ⟨by omega, ?_⟩
    rw [decode_unfold b t _ (f1 c1)]
    simp
  by_cases c2 : 0xC2 ≤ b.val ∧ b.val < 0xE0
  · exact dec2 b t (f2 c2) c2
  by_cases c3 : b.val = 0xE0
  · exact dec3 b t _ _ _ (f3 c3) (by decide) (by decide) a1 (by omega) (by decide) (by decide)
      (by intro b1 b2 _ _ _; omega)
  by_cases c4 : (0xE1 ≤ b.val ∧ b.val < 0xED ∨ b.val = 0xEE ∨ b.val = 0xEF)
  · exact dec3 b t _ _ _ (f4 c4) (by decide) (by decide) a0 (by omega) (by decide) (by decide)
      (by intro b1 b2 _ _ _; omega)
  by_cases c5 : b.val = 0xED
  · exact dec3 b t _ _ _ (f5 c5) (by decide) (by decide) a2 (by omega) (by decide) (by decide)
      (by intro b1 b2 _ _ _; omega)
  by_cases c6 : b.val = 0xF0
  · exact dec4 b t _ _ _ (f6 c6) (by decide) (by decide) a3 (by omega) (by decide) (by decide)
      (by intro b1 b2 _ _ _; omega)
  by_cases c7 : 0xF1 ≤ b.val ∧ b.val < 0xF4
  · exact dec4 b t _ _ _ (f7 c7) (by decide) (by decide) a0 (by omega) (by decide) (by decide)
      (by intro b1 b2 _ _ _; omega)
  have c8 : b.val = 0xF4 := by omega
  exact dec4 b t _ _ _ (f8 c8) (by decide) (by decide) a4 (by omega) (by decide) (by decide)
    (by intro b1 b2 _ _ _; omega)

theorem dec_enc1 (i : Nat) (h : i ≤ 0x7F) (t : GoString) :
    utf8.DecodeRuneInString (byte i :: t) = ((i : Int), 1) := by
  have hv : (byte i).val = i := by rw [byte_val]; omega
  rw [decode_unfold _ t _ ((first_class (byte i)).1 (by omega))]
  simp [hv]

theorem dec_enc2 (i : Nat) (h : 0x80 ≤ i ∧ i ≤ 0x7FF) (t : GoString) :
    utf8.DecodeRuneInString (byte (0xC0 + i / 64) :: byte (0x80 + i % 64) :: t)
      = ((i : Int), 2) := by
  have hv : (byte (0xC0 + i / 64)).val = 0xC0 + i / 64 := by rw [byte_val]; omega
  have hv1 : (byte (0x80 + i % 64)).val = 0x80 + i % 64 := by rw [byte_val]; omega
  obtain ⟨a0, -⟩ := acceptRanges_getD
  rw [decode_unfold _ _ _ ((first_class (byte (0xC0 + i / 64))).2.2.1 (by omega))]
  simp only [Nat.reduceMod, Nat.reduceDiv, a0, List.length_cons, List.getD_cons_zero, hv, hv1]
  rw [if_neg (by omega), if_neg (by omega), if_neg (by omega), if_pos (by omega)]
  congr 1
  omega

theorem dec_enc3 (i : Nat) (h : 0x800 ≤ i ∧ i ≤ 0xFFFF) (hs : ¬ (0xD800 ≤ i ∧ i ≤ 0xDFFF))
    (t : GoString) :
    utf8.DecodeRuneInString
      (byte (0xE0 + i / 4096) :: byte (0x80 + i / 64 % 64) :: byte (0x80 + i % 64) :: t)
      = ((i : Int), 3) := by
  have hv : (byte (0xE0 + i / 4096)).val = 0xE0 + i / 4096 := by rw [byte_val]; omega
  have hv1 : (byte (0x80 + i / 64 % 64)).val = 0x80 + i / 64 % 64 := by rw [byte_val]; omega
  have hv2 : (byte (0x80 + i % 64)).val = 0x80 + i % 64 := by rw [byte_val]; omega
  obtain ⟨a0, a1, a2, -⟩ := acceptRanges_getD
  obtain ⟨-, -, -, f3, f4, f5, -⟩ := first_class (byte (0xE0 + i / 4096))
  by_cases c3 : i / 4096 = 0
  · rw [decode_unfold _ _ _ (f3 (by omega))]
    simp only [Nat.reduceMod, Nat.reduceDiv, a1, List.length_cons, List.getD_cons_zero,
      List.getD_cons_succ, hv, hv1, hv2]
    rw [if_neg (by omega), if_neg (by omega), if_neg (by omega), if_neg (by omega),
      if_neg (by omega), if_pos (by omega)]
    congr 1
    omega
  by_cases c5 : i / 4096 = 13
  · rw [decode_unfold _ _ _ (f5 (by omega))]
    simp only [Nat.reduceMod, Nat.reduceDiv, a2, List.length_cons, List.getD_cons_zero,
      List.getD_cons_succ, hv, hv1, hv2]
    rw [if_neg (by omega), if_neg (by omega), if_neg (by omega), if_neg (by omega),
      if_neg (by omega), if_pos (by omega)]
    congr 1
    omega
  · rw [decode_unfold _ _ _ (f4 (by omega))]
    simp only [Nat.reduceMod, Nat.reduceDiv, a0, List.length_cons, List.getD_cons_zero,
      List.getD_cons_succ, hv, hv1, hv2]
    rw [if_neg (by omega), if_neg (by omega), if_neg (by omega), if_neg (by omega),
      if_neg (by omega), if_pos (by omega)]
    congr 1
    omega

theorem dec_enc4 (i : Nat) (h : 0x10000 ≤ i ∧ i ≤ 0x10FFFF) (t : GoString) :
    utf8.DecodeRuneInString
      (byte (0xF0 + i / 262144) :: byte (0x80 + i / 4096 % 64) :: byte (0x80 + i / 64 % 64)
        :: byte (0x80 + i % 64) :: t)
      = ((i : Int), 4) := by
  have hv : (byte (0xF0 + i / 262144)).val = 0xF0 + i / 262144 := by rw [byte_val]; omega
  have hv1 : (byte (0x80 + i / 4096 % 64)).val = 0x80 + i / 4096 % 64 := by
    rw [byte_val]; omega
  have hv2 : (byte (0x80 + i / 64 % 64)).val = 0x80 + i / 64 % 64 := by rw [byte_val]; omega
  have hv3 : (byte (0x80 + i % 64)).val = 0x80 + i % 64 := by rw [byte_val]; omega
  obtain ⟨a0, -, -, a3, a4⟩ := acceptRanges_getD
  obtain ⟨-, -, -, -, -, -, f6, f7, f8⟩ := first_class (byte (0xF0 + i / 262144))
  by_cases c6 : i / 262144 = 0
  · rw [decode_unfold _ _ _ (f6 (by omega))]
    simp only [Nat.reduceMod, Nat.reduceDiv, a3, List.length_cons, List.getD_cons_zero,
      List.getD_cons_succ, hv, hv1, hv2, hv3]
    rw [if_neg (by omega), if_neg (by omega), if_neg (by omega), if_neg (by omega),
      if_neg (by omega), if_neg (by omega), if_neg (by omega)]
    congr 1
    omega
  by_cases c8 : i / 262144 = 4
  · rw [decode_unfold _ _ _ (f8 (by omega))]
    simp only [Nat.reduceMod, Nat.reduceDiv, a4, List.length_cons, List.getD_cons_zero,
      List.getD_cons_succ, hv, hv1, hv2, hv3]
    rw [if_neg (by omega), if_neg (by omega), if_neg (by omega), if_neg (by omega),
      if_neg (by omega), if_neg (by omega), if_neg (by omega)]
    congr 1
    omega
  · rw [decode_unfold _ _ _ (f7 (by omega))]
    simp only [Nat.reduceMod, Nat.reduceDiv, a0, List.length_cons, List.getD_cons_zero,
      List.getD_cons_succ, hv, hv1, hv2, hv3]
    rw [if_neg (by omega), if_neg (by omega), if_neg (by omega), if_neg (by omega),
      if_neg (by omega), if_neg (by omega), if_neg (by omega)]
    congr 1
    omega

/-- Decoding what `utf8.AppendRune` wrote for a scalar value gives the value
back, whatever follows. -/
theorem decode_append (r : Int) (hv : ValidRune r) (t : GoString) :
    utf8.DecodeRuneInString (utf8.AppendRune [] r ++ t) = (r, (utf8.AppendRune [] r).length) ∧
      0 < (utf8.AppendRune [] r).length := by
  obtain ⟨h0, h1, h2⟩ := hv
  obtain ⟨i, rfl⟩ := Int.eq_ofNat_of_zero_le h0
  rw [appendRune_nat i (by omega)]
  by_cases c1 : i ≤ 0x7F
  · simp only [c1, if_true, List.singleton_append, List.length_singleton]
    exact ⟨dec_enc1 i c1 t, by omega⟩
  simp only [c1, if_false, utf8.appendRuneNonASCII, utf8.rune2Max, utf8.rune3Max,
    utf8.surrogateMin, utf8.surrogateMax, utf8.t2, utf8.t3, utf8.t4, utf8.tx, List.nil_append]
  by_cases c2 : i ≤ 0x7FF
  · simp only [c2, if_true, List.cons_append, List.nil_append, List.length_cons, List.length_nil]
    exact ⟨dec_enc2 i (by omega) t, by omega⟩
  have c3 : ¬ (i > 0x10FFFF ∨ (0xD800 ≤ i ∧ i ≤ 0xDFFF)) := by omega
  simp only [c2, c3, if_false]
  by_cases c4 : i ≤ 0xFFFF
  · simp only [c4, if_true, List.cons_append, List.nil_append, List.length_cons, List.length_nil]
    exact ⟨dec_enc3 i (by omega) (by omega) t, by omega⟩
  · simp only [c4, if_false, List.cons_append, List.nil_append, List.length_cons,
      List.length_nil]
    exact ⟨dec_enc4 i (by omega) t, by omega⟩

/-- What `utf8.AppendRune` writes for a rune that is no scalar value is the
encoding of `RuneError`. -/
theorem appendRune_invalid (r : Int) (h0 : 0 ≤ r) (h1 : r < 4294967296) (hv : ¬ ValidRune r) :
    utf8.AppendRune [] r = utf8.AppendRune [] utf8.RuneError := by
  obtain ⟨i, rfl⟩ := Int.eq_ofNat_of_zero_le h0
  have hi : i > 0x10FFFF ∨ (0xD800 ≤ i ∧ i ≤ 0xDFFF) := by
    unfold ValidRune at hv; omega
  have e : utf8.AppendRune [] utf8.RuneError = utf8.AppendRune [] ((0xFFFD : Nat) : Int) := rfl
  rw [e, appendRune_nat i (by omega), appendRune_nat 0xFFFD (by omega)]
  have c1 : ¬ (i ≤ 0x7F) := by omega
  have c2 : ¬ (i ≤ 0x7FF) := by omega
  simp only [c1, if_false, utf8.appendRuneNonASCII, utf8.rune2Max, utf8.rune3Max,
    utf8.surrogateMin, utf8.surrogateMax, c2, hi, if_true]
  decide

theorem validRune_written (r : Int) : ValidRune (written r) := by
  unfold written
  split_ifs with h
  · exact h
  · decide

theorem appendRune_written (r : Int) (h0 : 0 ≤ r) (h1 : r < 4294967296) :
    utf8.AppendRune [] (written r) = utf8.AppendRune [] r := by
  unfold written
  split_ifs with h
  · rfl
  · exact (appendRune_invalid r h0 h1 h).symm

theorem mapEntry_bounds (c : Nat) (e : unicode.CaseRange) (r : Int)
    (h1 : (e.Lo : Int) ≤ r) (h2 : r ≤ (e.Hi : Int)) :
    imgLo c e ≤ mapEntry c e r ∧ mapEntry c e r ≤ imgHi c e := by
  unfold imgLo imgHi mapEntry
  split_ifs <;> omega

theorem toSearch_mem (c : Nat) (r : Int) (cr : List unicode.CaseRange) (fuel lo hi : Nat) :
    unicode.toSearch c r cr fuel lo hi = (r, false) ∨
    ∃ e ∈ cr, (e.Lo : Int) ≤ r ∧ r ≤ (e.Hi : Int) ∧
      unicode.toSearch c r cr fuel lo hi = (mapEntry c e r, true) := by
  induction fuel generalizing lo hi with
  | zero => left; rfl
  | succ n ih =>
    unfold unicode.toSearch
    by_cases hlt : lo < hi
    · simp only [hlt, if_true]
      cases hm : cr[(lo + hi) / 2]? with
      | none => left; rfl
      | some e =>
        simp only
        by_cases hin : (e.Lo : Int) ≤ r ∧ r ≤ (e.Hi : Int)
        · right
          refine ⟨e, List.getElem?_mem hm, hin.1, hin.2, ?_⟩
          simp only [hin, and_self, if_true, mapEntry]
          split_ifs <;> rfl
        · simp only [hin, if_false]
          split_ifs
          · exact ih lo ((lo + hi) / 2)
          · exact ih ((lo + hi) / 2 + 1) hi
    · left
      simp only [hlt, if_false]

/-- The search of `unicode.to` gives the same result with any fuel above
`hi - lo`: the fuel passed by `unicode.to` is never used up. -/
theorem toSearch_fuel (c : Nat) (r : Int) (cr : List unicode.CaseRange) (fuel lo hi : Nat)
    (h : hi - lo < fuel) :
    unicode.toSearch c r cr fuel lo hi = unicode.toSearch c r cr (hi - lo + 1) lo hi := by
  induction fuel using Nat.strong_induction_on generalizing lo hi with
  | _ n ih =>
    obtain ⟨m, rfl⟩ : ∃ m, n = m + 1 := ⟨n - 1, by omega⟩
    unfold unicode.toSearch
    by_cases hlt : lo < hi
    · simp only [hlt, if_true]
      cases hm : cr[(lo + hi) / 2]? with
      | none => rfl
      | some e =>
        simp only
        split_ifs
        · rfl
        · rfl
        · rw [ih m (by omega) lo ((lo + hi) / 2) (by omega)]
          by_cases hk : hi - lo = (lo + hi) / 2 - lo + 1
          · rw [hk]
          · rw [ih (hi - lo) (by omega) lo ((lo + hi) / 2) (by omega)]
        · rw [ih m (by omega) ((lo + hi) / 2 + 1) hi (by omega)]
          by_cases hk : hi - lo = hi - ((lo + hi) / 2 + 1) + 1
          · rw [← hk]
          · rw [ih (hi - lo) (by omega) ((lo + hi) / 2 + 1) hi (by omega)]
    · simp only [hlt, if_false]

/-- Go `unicode.To` either leaves the rune as it is or maps it by the range of
`CaseRanges` it lies in. -/
theorem To_cases (c : Nat) (hc : c < 3) (r : Int) :
    unicode.To c r = r ∨
    ∃ e ∈ unicode.CaseRanges, (e.Lo : Int) ≤ r ∧ r ≤ (e.Hi : Int) ∧
      unicode.To c r = mapEntry c e r := by
  unfold unicode.To unicode.to_
  have : ¬ (unicode.MaxCase ≤ c) := by unfold unicode.MaxCase; omega
  simp only [this, if_false]
  rcases toSearch_mem c r unicode.CaseRanges (unicode.CaseRanges.length + 1) 0
    unicode.CaseRanges.length with h | ⟨e, he, h1, h2, h⟩
  · left; rw [h]
  · right; exact ⟨e, he, h1, h2, by rw [h]⟩

theorem lowerCheck_all : unicode.CaseRanges.all lowerCheck = true := by decide

theorem upperCheck_all : unicode.CaseRanges.all upperCheck = true := by decide

theorem lowerDotCheck_all : unicode.CaseRanges.all lowerDotCheck = true := by decide

theorem upperDotCheck_all : unicode.CaseRanges.all upperDotCheck = true := by decide

theorem boundsCheck_all : unicode.CaseRanges.all boundsCheck = true := by decide

theorem To_lower_ascii (r : Int) (h : 0x80 ≤ r) (hr : unicode.To 1 r < 0x80) :
    (r = 0x130 ∧ unicode.To 1 r = 0x69) ∨ (r = 0x212A ∧ unicode.To 1 r = 0x6B) := by
  rcases To_cases 1 (by decide) r with h0 | ⟨e, he, h1, h2, h3⟩
  · omega
  · have hb := mapEntry_bounds 1 e r h1 h2
    have hc := List.all_eq_true.mp lowerCheck_all e he
    simp only [lowerCheck, Bool.or_eq_true, decide_eq_true_eq] at hc
    rcases hc with ((hc | hc) | ⟨k1, k2, k3⟩) | ⟨k1, k2, k3⟩
    · omega
    · omega
    · left
      have hr0 : r = 0x130 := by omega
      refine ⟨hr0, ?_⟩
      rw [h3, mapEntry, k3, hr0, if_neg (by decide)]
      decide
    · right
      have hr0 : r = 0x212A := by omega
      refine ⟨hr0, ?_⟩
      rw [h3, mapEntry, k3, hr0, if_neg (by decide)]
      decide

theorem To_upper_ascii (r : Int) (h : 0x80 ≤ r) (hr : unicode.To 0 r < 0x80) :
    (r = 0x131 ∧ unicode.To 0 r = 0x49) ∨ (r = 0x17F ∧ unicode.To 0 r = 0x53) := by
  rcases To_cases 0 (by decide) r with h0 | ⟨e, he, h1, h2, h3⟩
  · omega
  · have hb := mapEntry_bounds 0 e r h1 h2
    have hc := List.all_eq_true.mp upperCheck_all e he
    simp only [upperCheck, Bool.or_eq_true, decide_eq_true_eq] at hc
    rcases hc with ((hc | hc) | ⟨k1, k2, k3⟩) | ⟨k1, k2, k3⟩
    · omega
    · omega
    · left
      have hr0 : r = 0x131 := by omega
      refine ⟨hr0, ?_⟩
      rw [h3, mapEntry, k3, hr0, if_neg (by decide)]
      decide
    · right
      have hr0 : r = 0x17F := by omega
      refine ⟨hr0, ?_⟩
      rw [h3, mapEntry, k3, hr0, if_neg (by decide)]
      decide

theorem To_lower_ne_dot (r : Int) (h : r ≠ 0x130) : unicode.To 1 r ≠ 0x130 := by
  rcases To_cases 1 (by decide) r with h0 | ⟨e, he, h1, h2, h3⟩
  · omega
  · have hb := mapEntry_bounds 1 e r h1 h2
    have hc := List.all_eq_true.mp lowerDotCheck_all e he
    simp only [lowerDotCheck, Bool.or_eq_true, decide_eq_true_eq] at hc
    rcases hc with (hc | hc) | ⟨k1, k2⟩
    · omega
    · omega
    · omega

theorem To_upper_eq_dot (r : Int) (h : unicode.To 0 r = 0x130) : r = 0x130 := by
  rcases To_cases 0 (by decide) r with h0 | ⟨e, he, h1, h2, h3⟩
  · omega
  · have hb := mapEntry_bounds 0 e r h1 h2
    have hc := List.all_eq_true.mp upperDotCheck_all e he
    simp only [upperDotCheck, Bool.or_eq_true, decide_eq_true_eq] at hc
    rcases hc with (hc | hc) | ⟨k1, k2, k3⟩
    · omega
    · omega
    · omega

theorem To_bounds (c : Nat) (hc : c = 0 ∨ c = 1) (r : Int) (h0 : 0 ≤ r) (h1 : r ≤ 0x10FFFF) :
    0 ≤ unicode.To c r ∧ unicode.To c r ≤ 0x10FFFF := by
  rcases To_cases c (by omega) r with h0 | ⟨e, he, h1, h2, h3⟩
  · omega
  · have hb := mapEntry_bounds c e r h1 h2
    have hk := List.all_eq_true.mp boundsCheck_all e he
    simp only [boundsCheck, Bool.and_eq_true, decide_eq_true_eq] at hk
    rcases hc with rfl | rfl <;> omega

theorem To_lower_dot : unicode.To 1 0x130 ≠ 0x130 := by decide

/-- Go `unicode.ToLower` on a code point: the result is a code point, and it is
ASCII only for an ASCII rune, for U+0130 (`i`) and for U+212A (`k`). -/
theorem ToLower_spec (r : Int) (h0 : 0 ≤ r) (h1 : r ≤ 0x10FFFF) :
    0 ≤ unicode.ToLower r ∧ unicode.ToLower r ≤ 0x10FFFF ∧
    unicode.ToLower r ≠ 0x130 ∧
    (r < 0x80 → unicode.ToLower r = if 0x41 ≤ r ∧ r ≤ 0x5A then r + 0x20 else r) ∧
    (0x80 ≤ r → unicode.ToLower r < 0x80 →
      (r = 0x130 ∧ unicode.ToLower r = 0x69) ∨ (r = 0x212A ∧ unicode.ToLower r = 0x6B)) := by
  by_cases ha : r ≤ 0x7F
  · have e : unicode.ToLower r = if 0x41 ≤ r ∧ r ≤ 0x5A then r + 0x20 else r := by
      simp only [unicode.ToLower, unicode.MaxASCII, ha, if_true]
      split_ifs <;> omega
    rw [e]
    refine ⟨?_, ?_, ?_, ?_, ?_⟩
    · split_ifs <;> omega
    · split_ifs <;> omega
    · split_ifs <;> omega
    · intro _; rfl
    · intro h; omega
  · have e : unicode.ToLower r = unicode.To 1 r := by
      simp only [unicode.ToLower, unicode.MaxASCII, ha, if_false, unicode.LowerCase]
    rw [e]
    have hb := To_bounds 1 (Or.inr rfl) r h0 h1
    refine ⟨hb.1, hb.2, ?_, ?_, ?_⟩
    · by_cases hd : r = 0x130
      · rw [hd]; exact To_lower_dot
      · exact To_lower_ne_dot r hd
    · intro h; omega
    · intro h; exact To_lower_ascii r h

/-- Go `unicode.ToUpper` on a code point: the result is a code point, it is
ASCII only for an ASCII rune, for U+0131 (`I`) and for U+017F (`S`), and it is
U+0130 only for U+0130. -/
theorem ToUpper_spec (r : Int) (h0 : 0 ≤ r) (h1 : r ≤ 0x10FFFF) :
    0 ≤ unicode.ToUpper r ∧ unicode.ToUpper r ≤ 0x10FFFF ∧
    (unicode.ToUpper r = 0x130 → r = 0x130) ∧
    (r < 0x80 → unicode.ToUpper r = if 0x61 ≤ r ∧ r ≤ 0x7A then r - 0x20 else r) ∧
    (0x80 ≤ r → unicode.ToUpper r < 0x80 →
      (r = 0x131 ∧ unicode.ToUpper r = 0x49) ∨ (r = 0x17F ∧ unicode.ToUpper r = 0x53)) := by
  by_cases ha : r ≤ 0x7F
  · have e : unicode.ToUpper r = if 0x61 ≤ r ∧ r ≤ 0x7A then r - 0x20 else r := by
      simp only [unicode.ToUpper, unicode.MaxASCII, ha, if_true]
      split_ifs <;> omega
    rw [e]
    refine ⟨?_, ?_, ?_, ?_, ?_⟩
    · split_ifs <;> omega
    · split_ifs <;> omega
    · split_ifs <;> omega
    · intro _; rfl
    · intro h; omega
  · have e : unicode.ToUpper r = unicode.To 0 r := by
      simp only [unicode.ToUpper, unicode.MaxASCII, ha, if_false, unicode.UpperCase]
    rw [e]
    have hb := To_bounds 0 (Or.inl rfl) r h0 h1
    refine ⟨hb.1, hb.2, To_upper_eq_dot r, ?_, ?_⟩
    · intro h; omega
    · intro h; exact To_upper_ascii r h

/-! ## `strings.Map` rune by rune -/

/-- Decoding a non-empty string consumes at least one byte and no more than
the string holds, and yields a code point. -/
theorem decode_width (b : Byte) (t : GoString) :
    1 ≤ (utf8.DecodeRuneInString (b :: t)).2 ∧
    (utf8.DecodeRuneInString (b :: t)).2 ≤ t.length + 1 ∧
    0 ≤ (utf8.DecodeRuneInString (b :: t)).1 ∧
    (utf8.DecodeRuneInString (b :: t)).1 ≤ 0x10FFFF := by
  rcases decode_cons b t with ⟨_, h⟩ | ⟨_, h⟩ | ⟨c, w, h, _, hv, h2, h3, _, _⟩
  · rw [h]; have := b.isLt; simp only; omega
  · rw [h]; simp only [utf8.RuneError]; omega
  · rw [h]; simp only [List.length_cons] at h3; unfold ValidRune at hv; simp only; omega

theorem runesFuel_ge (n : Nat) : ∀ (s : GoString) (f1 f2 : Nat), s.length ≤ n →
    s.length ≤ f1 → s.length ≤ f2 → runesFuel f1 s = runesFuel f2 s := by
  induction n with
  | zero =>
    intro s f1 f2 h _ _
    have : s = [] := List.length_eq_zero.mp (by omega)
    subst this
    cases f1 <;> cases f2 <;> rfl
  | succ n ih =>
    intro s f1 f2 h h1 h2
    rcases s with _ | ⟨b, t⟩
    · cases f1 <;> cases f2 <;> rfl
    · simp only [List.length_cons] at h h1 h2
      obtain ⟨g1, rfl⟩ : ∃ g, f1 = g + 1 := ⟨f1 - 1, by omega⟩
      obtain ⟨g2, rfl⟩ : ∃ g, f2 = g + 1 := ⟨f2 - 1, by omega⟩
      have hw := decode_width b t
      simp only [runesFuel]
      congr 1
      apply ih
      all_goals simp only [List.length_drop, List.length_cons]
      all_goals omega

/-- One step of `for _, c := range s`. -/
theorem runes_cons (b : Byte) (t : GoString) :
    runes (b :: t) = (utf8.DecodeRuneInString (b :: t)).1 ::
      runes ((b :: t).drop (utf8.DecodeRuneInString (b :: t)).2) := by
  have hw := decode_width b t
  unfold runes
  simp only [List.length_cons, runesFuel]
  congr 1
  apply runesFuel_ge (t.length)
  all_goals simp only [List.length_drop, List.length_cons]
  all_goals omega

theorem runes_nil : runes [] = [] := rfl

/-- Every rune of a string is a code point. -/
theorem runes_bounds (s : GoString) : ∀ r ∈ runes s, 0 ≤ r ∧ r ≤ 0x10FFFF := by
  generalize hn : s.length = n
  induction n using Nat.strong_induction_on generalizing s with
  | _ n ih =>
    rcases s with _ | ⟨b, t⟩
    · intro r hr; simp [runes_nil] at hr
    · intro r hr
      have hw := decode_width b t
      rw [runes_cons] at hr
      rcases List.mem_cons.mp hr with rfl | hr
      · exact ⟨hw.2.2.1, hw.2.2.2⟩
      · refine ih _ ?_ _ rfl r hr
        simp only [List.length_drop, List.length_cons] at hn ⊢
        omega

theorem mapRest_eq (f : Int → Int) (fuel : Nat) (s : GoString) :
    strings.mapRest f fuel s = encodeAll ((runesFuel fuel s).map f) := by
  induction fuel generalizing s with
  | zero => rfl
  | succ n ih =>
    rcases s with _ | ⟨b, t⟩
    · rfl
    · simp only [strings.mapRest, runesFuel, List.map_cons, encodeAll, ih]

theorem mapScan_eq (f : Int → Int) (fuel : Nat) (s : GoString) :
    strings.mapScan f fuel s = strings.mapRest f fuel s := by
  induction fuel generalizing s with
  | zero => rfl
  | succ n ih =>
    rcases s with _ | ⟨b, t⟩
    · rfl
    · have hb := b.isLt
      simp only [strings.mapScan, strings.mapRest, ih]
      rcases decode_cons b t with ⟨hlt, h⟩ | ⟨_, h⟩ | ⟨c, w, h, hc, hv, h2, h3, h4, h5⟩
      · rw [h]
        simp only
        have hne : (b.val : Int) ≠ utf8.RuneError := by unfold utf8.RuneError; omega
        have hlen : utf8.RuneLen (b.val : Int) = 1 := by
          simp only [utf8.RuneLen, utf8.rune1Max]; split_ifs <;> omega
        have happ : utf8.AppendRune [] (b.val : Int) = [b] := by
          rw [appendRune_nat _ (by omega), if_pos (by omega)]
          congr 1
          apply Fin.ext; rw [byte_val]; omega
        by_cases hk : f (b.val : Int) = (b.val : Int)
        · have hpos : f (b.val : Int) ≥ 0 := by omega
          simp [hk, hne, happ]
        · simp [hk, hne, hlen]
      · rw [h]
        simp
      · rw [h]
        simp only
        unfold ValidRune at hv
        have hpos : (c : Int) ≥ 0 := by omega
        have hw : (w : Int) ≠ 1 := by omega
        by_cases hk : f (c : Int) = (c : Int)
        · by_cases hne : (c : Int) = utf8.RuneError
          · rw [if_neg (fun hh => hh.2 hne), if_pos hne, if_pos ⟨hne, hw, hk⟩, h4, hk,
              if_pos hpos]
          · rw [if_pos ⟨hk, hne⟩, h4, hk, if_pos hpos]
        · by_cases hne : (c : Int) = utf8.RuneError
          · rw [if_neg (fun hh => hk hh.1), if_pos hne, if_neg (fun hh => hk hh.2.2),
              Int.toNat_ofNat]
          · rw [if_neg (fun hh => hk hh.1), if_neg hne, if_neg (fun hh => hne hh.1), h5,
              Int.toNat_ofNat]

/-- Go's `strings.Map` writes the mapped runes of the string in order. -/
theorem Map_eq (f : Int → Int) (s : GoString) :
    strings.Map f s = encodeAll ((runes s).map f) := by
  unfold strings.Map runes
  rw [mapScan_eq, mapRest_eq]

theorem decode_ascii (b : Byte) (t : GoString) (h : b.val < 0x80) :
    utf8.DecodeRuneInString (b :: t) = ((b.val : Int), 1) := by
  rw [decode_unfold b t _ ((first_class b).1 h)]
  simp

theorem appendRune_ascii (i : Nat) (h : i < 0x80) : utf8.AppendRune [] (i : Int) = [byte i] := by
  rw [appendRune_nat _ (by omega), if_pos (by omega)]

theorem byte_of_val (b : Byte) : byte b.val = b := by
  apply Fin.ext; rw [byte_val]; have := b.isLt; omega

theorem runes_ascii (s : GoString) (h : ∀ b ∈ s, b.val < 0x80) :
    runes s = s.map (fun b => (b.val : Int)) := by
  induction s with
  | nil => rfl
  | cons b t ih =>
    rw [runes_cons, decode_ascii b t (h b (List.mem_cons_self b t))]
    simp only [List.drop_succ_cons, List.drop_zero, List.map_cons]
    rw [ih (fun x hx => h x (List.mem_cons_of_mem b hx))]

theorem lower_ascii_eq (s : GoString) (h : ∀ b ∈ s, b.val < 0x80) :
    encodeAll ((s.map (fun b => (b.val : Int))).map unicode.ToLower) =
      s.map (fun c => if 0x41 ≤ c.val ∧ c.val ≤ 0x5A then byte (c.val + (0x61 - 0x41)) else c) := by
  induction s with
  | nil => rfl
  | cons b t ih =>
    have hb := h b (List.mem_cons_self b t)
    simp only [List.map_cons, encodeAll]
    rw [ih (fun x hx => h x (List.mem_cons_of_mem b hx))]
    have e : unicode.ToLower (b.val : Int) =
        ((if 0x41 ≤ b.val ∧ b.val ≤ 0x5A then b.val + 0x20 else b.val : Nat) : Int) := by
      simp only [unicode.ToLower, unicode.MaxASCII]
      split_ifs <;> omega
    rw [e, if_pos (by omega), appendRune_ascii _ (by split_ifs <;> omega)]
    simp only [List.singleton_append, List.cons.injEq, and_true]
    split_ifs
    · rfl
    · exact byte_of_val b

theorem upper_ascii_eq (s : GoString) (h : ∀ b ∈ s, b.val < 0x80) :
    encodeAll ((s.map (fun b => (b.val : Int))).map unicode.ToUpper) =
      s.map (fun c => if 0x61 ≤ c.val ∧ c.val ≤ 0x7A then byte (c.val - (0x61 - 0x41)) else c) := by
  induction s with
  | nil => rfl
  | cons b t ih =>
    have hb := h b (List.mem_cons_self b t)
    simp only [List.map_cons, encodeAll]
    rw [ih (fun x hx => h x (List.mem_cons_of_mem b hx))]
    have e : unicode.ToUpper (b.val : Int) =
        ((if 0x61 ≤ b.val ∧ b.val ≤ 0x7A then b.val - 0x20 else b.val : Nat) : Int) := by
      simp only [unicode.ToUpper, unicode.MaxASCII]
      split_ifs <;> omega
    rw [e, if_pos (by omega), appendRune_ascii _ (by split_ifs <;> omega)]
    simp only [List.singleton_append, List.cons.injEq, and_true]
    split_ifs
    · rfl
    · exact byte_of_val b

theorem map_ite_id (s : GoString) (p : Byte → Prop) [DecidablePred p] (g : Byte → Byte)
    (h : ∀ b ∈ s, ¬ p b) : s.map (fun c => if p c then g c else c) = s := by
  induction s with
  | nil => rfl
  | cons b t ih =>
    simp only [List.map_cons, if_neg (h b (List.mem_cons_self b t))]
    rw [ih (fun x hx => h x (List.mem_cons_of_mem b hx))]

/-- Go `strings.ToLower` writes the lower case of every rune of the string, the
ASCII-only path included. -/
theorem ToLower_eq (s : GoString) :
    strings.ToLower s = encodeAll ((runes s).map unicode.ToLower) := by
  unfold strings.ToLower
  simp only
  by_cases ha : s.all (fun c => decide (c.val < utf8.RuneSelf)) = true
  · have hall : ∀ b ∈ s, b.val < 0x80 := by
      intro b hb
      have := List.all_eq_true.mp ha b hb
      simpa [utf8.RuneSelf] using this
    rw [if_pos ha, runes_ascii s hall, lower_ascii_eq s hall]
    by_cases hu : s.any (fun c => decide (0x41 ≤ c.val ∧ c.val ≤ 0x5A)) = true
    · rw [if_neg (by simpa using hu)]
    · rw [if_pos (by simpa using hu)]
      symm
      apply map_ite_id s (fun c => 0x41 ≤ c.val ∧ c.val ≤ 0x5A)
      intro b hb hp
      apply hu
      exact List.any_eq_true.mpr ⟨b, hb, by simpa using hp⟩
  · rw [if_neg ha, Map_eq]

/-- Go `strings.ToUpper` writes the upper case of every rune of the string, the
ASCII-only path included. -/
theorem ToUpper_eq (s : GoString) :
    strings.ToUpper s = encodeAll ((runes s).map unicode.ToUpper) := by
  unfold strings.ToUpper
  simp only
  by_cases ha : s.all (fun c => decide (c.val < utf8.RuneSelf)) = true
  · have hall : ∀ b ∈ s, b.val < 0x80 := by
      intro b hb
      have := List.all_eq_true.mp ha b hb
      simpa [utf8.RuneSelf] using this
    rw [if_pos ha, runes_ascii s hall, upper_ascii_eq s hall]
    by_cases hu : s.any (fun c => decide (0x61 ≤ c.val ∧ c.val ≤ 0x7A)) = true
    · rw [if_neg (by simpa using hu)]
    · rw [if_pos (by simpa using hu)]
      symm
      apply map_ite_id s (fun c => 0x61 ≤ c.val ∧ c.val ≤ 0x7A)
      intro b hb hp
      apply hu
      exact List.any_eq_true.mpr ⟨b, hb, by simpa using hp⟩
  · rw [if_neg ha, Map_eq]

/-! ## Strings as rune sequences -/

theorem runes_append (r : Int) (hv : ValidRune r) (t : GoString) :
    runes (utf8.AppendRune [] r ++ t) = r :: runes t := by
  obtain ⟨hd, hl⟩ := decode_append r hv t
  rcases he : utf8.AppendRune [] r with _ | ⟨b, u⟩
  · rw [he] at hl; simp at hl
  · rw [he] at hd
    simp only [List.cons_append] at hd ⊢
    rw [runes_cons, hd]
    simp only [List.length_cons]
    congr 1
    rw [← List.cons_append, List.drop_left' (by simp)]

/-- Decoding the bytes written for a list of runes gives the runes written. -/
theorem runes_encodeAll (rs : List Int) (h : ∀ r ∈ rs, 0 ≤ r ∧ r < 4294967296) :
    runes (encodeAll rs) = rs.map written := by
  induction rs with
  | nil => rfl
  | cons r rs ih =>
    obtain ⟨h0, h1⟩ := h r (List.mem_cons_self r rs)
    simp only [encodeAll, List.map_cons]
    rw [if_pos (by omega), ← appendRune_written r h0 h1, runes_append _ (validRune_written r),
      ih (fun x hx => h x (List.mem_cons_of_mem r hx))]

/-- A string that holds no invalid byte (and no U+FFFD) is the encoding of
its runes. -/
theorem encodeAll_runes (s : GoString) (h : utf8.RuneError ∉ runes s) :
    encodeAll (runes s) = s := by
  generalize hn : s.length = n
  induction n using Nat.strong_induction_on generalizing s with
  | _ n ih =>
    rcases s with _ | ⟨b, t⟩
    · rfl
    · have hw := decode_width b t
      rw [runes_cons] at h ⊢
      simp only [List.mem_cons, not_or] at h
      have hrec := ih _ (by simp only [List.length_drop, List.length_cons] at hn ⊢; omega)
        _ h.2 rfl
      simp only [encodeAll]
      rw [hrec, if_pos (by omega)]
      rcases decode_cons b t with ⟨hlt, hd⟩ | ⟨_, hd⟩ | ⟨c, w, hd, hc, hv, h2, h3, h4, h5⟩
      · rw [hd]
        simp only [List.drop_succ_cons, List.drop_zero]
        rw [appendRune_ascii _ hlt, byte_of_val]
        rfl
      · rw [hd] at h
        exact absurd rfl h.1
      · rw [hd]
        simp only
        rw [← h4]
        exact List.take_append_drop w (b :: t)

theorem lower_special : unicode.ToLower 0x130 = 0x69 ∧ unicode.ToLower 0x212A = 0x6B := by
  decide

theorem upper_special : unicode.ToUpper 0x131 = 0x49 ∧ unicode.ToUpper 0x17F = 0x53 ∧
    unicode.ToUpper 0x130 = 0x130 := by
  decide

theorem lowerPre_iff (x r : Int) (hx : Target x) (h0 : 0 ≤ r) (h1 : r ≤ 0x10FFFF) :
    unicode.ToLower r = x ↔ r ∈ lowerPre x := by
  obtain ⟨-, -, hd, ha, hn⟩ := ToLower_spec r h0 h1
  obtain ⟨s1, s2⟩ := lower_special
  unfold lowerPre
  constructor
  · intro h
    by_cases hr : r < 0x80
    · rw [ha hr] at h
      split_ifs at h ⊢ <;> simp only [List.mem_cons, List.mem_singleton, List.not_mem_nil,
        or_false] <;> omega
    · rcases hx with hx | hx
      · rcases hn (by omega) (by omega) with ⟨k1, k2⟩ | ⟨k1, k2⟩
        · have : x = 0x69 := by omega
          subst this; subst k1; simp
        · have : x = 0x6B := by omega
          subst this; subst k1; simp
      · omega
  · intro h
    split_ifs at h <;> simp only [List.mem_cons, List.mem_singleton, List.not_mem_nil,
        or_false] at h
    · rcases h with rfl | rfl | rfl
      · rw [ha (by omega)]; split_ifs <;> omega
      · rw [ha (by omega)]; split_ifs <;> omega
      · omega
    · rcases h with rfl | rfl | rfl
      · rw [ha (by omega)]; split_ifs <;> omega
      · rw [ha (by omega)]; split_ifs <;> omega
      · omega
    · rcases h with rfl | rfl
      · rw [ha (by omega)]; split_ifs <;> omega
      · rw [ha (by omega)]; split_ifs <;> omega
    · subst h
      rcases hx with hx | hx
      · rw [ha (by omega), if_neg (by omega)]
      · omega

theorem upperPre_iff (y r : Int) (hy : Target y) (h0 : 0 ≤ r) (h1 : r ≤ 0x10FFFF) :
    unicode.ToUpper r = y ↔ r ∈ upperPre y := by
  obtain ⟨-, -, hd, ha, hn⟩ := ToUpper_spec r h0 h1
  obtain ⟨s1, s2, s3⟩ := upper_special
  unfold upperPre
  constructor
  · intro h
    by_cases hr : r < 0x80
    · rw [ha hr] at h
      split_ifs at h ⊢ <;> simp only [List.mem_cons, List.mem_singleton, List.not_mem_nil,
        or_false] <;> omega
    · rcases hy with hy | hy
      · rcases hn (by omega) (by omega) with ⟨k1, k2⟩ | ⟨k1, k2⟩
        · have : y = 0x49 := by omega
          subst this; subst k1; simp
        · have : y = 0x53 := by omega
          subst this; subst k1; simp
      · have := hd (by omega)
        subst this; subst hy; simp
  · intro h
    split_ifs at h with c1 <;> simp only [List.mem_cons, List.mem_singleton, List.not_mem_nil,
        or_false] at h
    · subst h; rw [s3, c1]
    · rcases h with rfl | rfl | rfl
      · rw [ha (by omega)]; split_ifs <;> omega
      · rw [ha (by omega)]; split_ifs <;> omega
      · omega
    · rcases h with rfl | rfl | rfl
      · rw [ha (by omega)]; split_ifs <;> omega
      · rw [ha (by omega)]; split_ifs <;> omega
      · omega
    · rcases h with rfl | rfl
      · rw [ha (by omega)]; split_ifs <;> omega
      · rw [ha (by omega)]; split_ifs <;> omega
    · subst h
      rcases hy with hy | hy
      · rw [ha (by omega), if_neg (by omega)]
      · omega

theorem target_valid (x : Int) (h : Target x) : ValidRune x ∧ x ≠ utf8.RuneError := by
  unfold Target at h
  unfold ValidRune utf8.RuneError
  omega

theorem written_valid (r : Int) (h : ValidRune r) : written r = r := by
  unfold written; rw [if_pos h]

theorem map_written_valid (rs : List Int) (h : ∀ r ∈ rs, ValidRune r) :
    rs.map written = rs := by
  induction rs with
  | nil => rfl
  | cons r rs ih =>
    rw [List.map_cons, written_valid r (h r (List.mem_cons_self r rs)),
      ih (fun x hx => h x (List.mem_cons_of_mem r hx))]

theorem written_eq_target (x y : Int) (hx : Target x) (h : written y = x) : y = x := by
  have hv := target_valid x hx
  unfold written at h
  split_ifs at h
  · exact h
  · exact absurd h.symm hv.2

theorem map_written_eq (w l : List Int) (hw : ∀ x ∈ w, Target x) (h : l.map written = w) :
    l = w := by
  induction l generalizing w with
  | nil => simpa using h
  | cons y l ih =>
    rcases w with _ | ⟨x, w⟩
    · simp at h
    · simp only [List.map_cons, List.cons.injEq] at h
      rw [written_eq_target x y (hw x (List.mem_cons_self x w)) h.1,
        ih w (fun z hz => hw z (List.mem_cons_of_mem x hz)) h.2]

theorem mem_preimages_cons (pre : Int → List Int) (x : Int) (xs rs : List Int) :
    rs ∈ preimages pre (x :: xs) ↔
      ∃ r rs1, rs = r :: rs1 ∧ r ∈ pre x ∧ rs1 ∈ preimages pre xs := by
  simp only [preimages, List.mem_flatMap, List.mem_map]
  constructor
  · rintro ⟨r, hr, rs1, h1, rfl⟩
    exact ⟨r, rs1, rfl, hr, h1⟩
  · rintro ⟨r, rs1, rfl, hr, h1⟩
    exact ⟨r, hr, rs1, h1, rfl⟩

theorem map_eq_iff_preimages (f : Int → Int) (pre : Int → List Int) (w : List Int) :
    ∀ rs : List Int,
    (∀ x ∈ w, ∀ r, 0 ≤ r → r ≤ 0x10FFFF → (f r = x ↔ r ∈ pre x)) →
    (∀ r ∈ rs, 0 ≤ r ∧ r ≤ 0x10FFFF) →
    (rs.map f = w ↔ rs ∈ preimages pre w) := by
  induction w with
  | nil =>
    intro rs _ _
    simp [preimages]
  | cons x xs ih =>
    intro rs hel hb
    rw [mem_preimages_cons]
    rcases rs with _ | ⟨r, rs1⟩
    · simp
    · have hr := hb r (List.mem_cons_self r rs1)
      have h1 := hel x (List.mem_cons_self x xs) r hr.1 hr.2
      have h2 := ih rs1 (fun z hz => hel z (List.mem_cons_of_mem x hz))
        (fun z hz => hb z (List.mem_cons_of_mem r hz))
      simp only [List.map_cons, List.cons.injEq]
      constructor
      · rintro ⟨ha, hb⟩
        exact ⟨r, rs1, ⟨rfl, rfl⟩, h1.mp ha, h2.mp hb⟩
      · rintro ⟨r0, rs0, ⟨rfl, rfl⟩, ha, hb⟩
        exact ⟨h1.mpr ha, h2.mpr hb⟩

theorem preimages_valid (pre : Int → List Int) (w : List Int)
    (hp : ∀ x ∈ w, ∀ r ∈ pre x, ValidRune r ∧ r ≠ utf8.RuneError) :
    ∀ rs ∈ preimages pre w, ∀ r ∈ rs, ValidRune r ∧ r ≠ utf8.RuneError := by
  induction w with
  | nil =>
    intro rs hrs r hr
    simp only [preimages, List.mem_singleton] at hrs
    subst hrs
    simp at hr
  | cons x xs ih =>
    intro rs hrs r hr
    rw [mem_preimages_cons] at hrs
    obtain ⟨r0, rs1, rfl, h0, h1⟩ := hrs
    rcases List.mem_cons.mp hr with rfl | hr
    · exact hp x (List.mem_cons_self x xs) r h0
    · exact ih (fun z hz => hp z (List.mem_cons_of_mem x hz)) rs1 h1 r hr

theorem lowerPre_valid (x : Int) (hx : Target x) :
    ∀ r ∈ lowerPre x, ValidRune r ∧ r ≠ utf8.RuneError := by
  intro r hr
  unfold Target at hx
  unfold lowerPre at hr
  unfold ValidRune utf8.RuneError
  split_ifs at hr <;> simp only [List.mem_cons, List.mem_singleton, List.not_mem_nil,
    or_false] at hr <;> omega

theorem upperPre_valid (y : Int) (hy : Target y) :
    ∀ r ∈ upperPre y, ValidRune r ∧ r ≠ utf8.RuneError := by
  intro r hr
  unfold Target at hy
  unfold upperPre at hr
  unfold ValidRune utf8.RuneError
  split_ifs at hr <;> simp only [List.mem_cons, List.mem_singleton, List.not_mem_nil,
    or_false] at hr <;> omega

/-- A case conversion that works rune by rune returns the encoding of the
target sequence `w` exactly on the encodings of the preimages of `w`. -/
theorem conv_eq_iff (conv : GoString → GoString) (f : Int → Int) (pre : Int → List Int)
    (hconv : ∀ s, conv s = encodeAll ((runes s).map f))
    (hfb : ∀ r, 0 ≤ r → r ≤ 0x10FFFF → 0 ≤ f r ∧ f r ≤ 0x10FFFF)
    (hpre : ∀ x r, Target x → 0 ≤ r → r ≤ 0x10FFFF → (f r = x ↔ r ∈ pre x))
    (hpv : ∀ x, Target x → ∀ r ∈ pre x, ValidRune r ∧ r ≠ utf8.RuneError)
    (w : List Int) (hw : ∀ x ∈ w, Target x) (s : GoString) :
    conv s = encodeAll w ↔ s ∈ (preimages pre w).map encodeAll := by
  have hwv : ∀ x ∈ w, ValidRune x := fun x hx => (target_valid x (hw x hx)).1
  have hpw := preimages_valid pre w (fun x hx => hpv x (hw x hx))
  have hiff := fun rs => map_eq_iff_preimages f pre w rs
    (fun x hx r h0 h1 => hpre x r (hw x hx) h0 h1)
  constructor
  · intro h
    rw [hconv] at h
    have h2 := congrArg runes h
    rw [runes_encodeAll, runes_encodeAll, map_written_valid w hwv] at h2
    · have h3 := map_written_eq w _ hw h2
      have h4 := (hiff (runes s) (runes_bounds s)).mp h3
      have h5 : utf8.RuneError ∉ runes s := fun hm => (hpw _ h4 _ hm).2 rfl
      exact List.mem_map.mpr ⟨runes s, h4, encodeAll_runes s h5⟩
    · intro r hr
      have := hwv r hr
      unfold ValidRune at this
      omega
    · intro r hr
      obtain ⟨c, hc, rfl⟩ := List.mem_map.mp hr
      have hb := runes_bounds s c hc
      have := hfb c hb.1 hb.2
      omega
  · intro h
    obtain ⟨rs, hrs, rfl⟩ := List.mem_map.mp h
    have hv : ∀ r ∈ rs, ValidRune r := fun r hr => (hpw rs hrs r hr).1
    have hb : ∀ r ∈ rs, 0 ≤ r ∧ r ≤ 0x10FFFF := by
      intro r hr
      have := hv r hr
      unfold ValidRune at this
      omega
    rw [hconv, runes_encodeAll rs (by intro r hr; have := hb r hr; omega),
      map_written_valid rs hv, (hiff rs hb).mpr hrs]

/-- Go `strings.ToLower` returns the encoding of `w` exactly on the encodings of
the lower-case preimages of `w`. -/
theorem ToLower_eq_iff (w : List Int) (hw : ∀ x ∈ w, Target x) (s : GoString) :
    strings.ToLower s = encodeAll w ↔ s ∈ (preimages lowerPre w).map encodeAll :=
  conv_eq_iff strings.ToLower unicode.ToLower lowerPre ToLower_eq
    (fun r h0 h1 => ⟨(ToLower_spec r h0 h1).1, (ToLower_spec r h0 h1).2.1⟩)
    (fun x r hx h0 h1 => lowerPre_iff x r hx h0 h1) lowerPre_valid w hw s

/-- Go `strings.ToUpper` returns the encoding of `w` exactly on the encodings of
the upper-case preimages of `w`. -/
theorem ToUpper_eq_iff (w : List Int) (hw : ∀ x ∈ w, Target x) (s : GoString) :
    strings.ToUpper s = encodeAll w ↔ s ∈ (preimages upperPre w).map encodeAll :=
  conv_eq_iff strings.ToUpper unicode.ToUpper upperPre ToUpper_eq
    (fun r h0 h1 => ⟨(ToUpper_spec r h0 h1).1, (ToUpper_spec r h0 h1).2.1⟩)
    (fun y r hy h0 h1 => upperPre_iff y r hy h0 h1) upperPre_valid w hw s

theorem lit_words : lit "table" = encodeAll tableRunes ∧ lit "view" = encodeAll viewRunes ∧
    lit "" = [] ∧ lit "table" = [0x74, 0x61, 0x62, 0x6C, 0x65] ∧
    lit "view" = [0x76, 0x69, 0x65, 0x77] := by
  decide

theorem lower_table_list : ∀ x, x ∈ (preimages lowerPre tableRunes).map encodeAll ↔
    x ∈ asciiSpellings (lit "table") := by
  have h1 : ∀ x ∈ (preimages lowerPre tableRunes).map encodeAll,
      x ∈ asciiSpellings (lit "table") := by decide
  have h2 : ∀ x ∈ asciiSpellings (lit "table"),
      x ∈ (preimages lowerPre tableRunes).map encodeAll := by decide
  exact fun x => ⟨h1 x, h2 x⟩

theorem lower_view_list : ∀ x, x ∈ (preimages lowerPre viewRunes).map encodeAll ↔
    x ∈ asciiSpellings (lit "view") ++ dottedViewSpellings := by
  have h1 : ∀ x ∈ (preimages lowerPre viewRunes).map encodeAll,
      x ∈ asciiSpellings (lit "view") ++ dottedViewSpellings := by decide
  have h2 : ∀ x ∈ asciiSpellings (lit "view") ++ dottedViewSpellings,
      x ∈ (preimages lowerPre viewRunes).map encodeAll := by decide
  exact fun x => ⟨h1 x, h2 x⟩

theorem targets_table : ∀ x ∈ tableRunes, Target x := by decide

theorem targets_view : ∀ x ∈ viewRunes, Target x := by decide

theorem lit_table_ne_view : lit "table" ≠ lit "view" := by
  rw [lit_words.2.2.2.1, lit_words.2.2.2.2]; decide

theorem fromString_table_iff (s : GoString) :
    StructureTypeFromString s = StructureTypeTable ↔ strings.ToLower s = lit "table" := by
  unfold StructureTypeFromString
  simp only
  split_ifs with h1 h2
  · simp [h1]
  · simp only [h1, iff_false]; decide
  · simp only [h1, iff_false]; decide

theorem fromString_view_iff (s : GoString) :
    StructureTypeFromString s = StructureTypeView ↔ strings.ToLower s = lit "view" := by
  unfold StructureTypeFromString
  simp only
  split_ifs with h1 h2
  · have : strings.ToLower s ≠ lit "view" := by rw [h1]; exact lit_table_ne_view
    simp only [this, iff_false]; decide
  · simp [h2]
  · simp only [h2, iff_false]; decide

theorem fromString_none_iff (s : GoString) :
    StructureTypeFromString s = StructureTypeNone ↔
      strings.ToLower s ≠ lit "table" ∧ strings.ToLower s ≠ lit "view" := by
  unfold StructureTypeFromString
  simp only
  split_ifs with h1 h2
  · simp only [h1, ne_eq, not_true_eq_false, false_and, iff_false]; decide
  · simp only [h2, ne_eq, not_true_eq_false, and_false, iff_false]; decide
  · simp [h1, h2]

/-- The result of `StructureTypeFromString` depends only on which of the two
keywords the lower-cased input equals. -/
theorem fromString_congr (a b : GoString)
    (h1 : strings.ToLower a = lit "table" ↔ strings.ToLower b = lit "table")
    (h2 : strings.ToLower a = lit "view" ↔ strings.ToLower b = lit "view") :
    StructureTypeFromString a = StructureTypeFromString b := by
  unfold StructureTypeFromString
  simp only
  by_cases ha : strings.ToLower a = lit "table"
  · rw [if_pos ha, if_pos (h1.mp ha)]
  · rw [if_neg ha, if_neg (fun h => ha (h1.mpr h))]
    by_cases hb : strings.ToLower a = lit "view"
    · rw [if_pos hb, if_pos (h2.mp hb)]
    · rw [if_neg hb, if_neg (fun h => hb (h2.mpr h))]

theorem lower_table_iff (s : GoString) :
    strings.ToLower s = lit "table" ↔ s ∈ asciiSpellings (lit "table") := by
  rw [lit_words.1, ToLower_eq_iff tableRunes targets_table s, lower_table_list, lit_words.1]

theorem lower_view_iff (s : GoString) :
    strings.ToLower s = lit "view" ↔ s ∈ asciiSpellings (lit "view") ++ dottedViewSpellings := by
  rw [lit_words.2.1, ToLower_eq_iff viewRunes targets_view s, lower_view_list, lit_words.2.1]

/-- A case conversion followed by `strings.ToLower` returns the encoding of
`w` exactly on the encodings of the preimages of the lower-case preimages of
`w`, provided these are made of target runes. -/
theorem lower_conv_iff (conv : GoString → GoString) (pre : Int → List Int)
    (hconv : ∀ (v : List Int), (∀ x ∈ v, Target x) → ∀ s,
      (conv s = encodeAll v ↔ s ∈ (preimages pre v).map encodeAll))
    (w : List Int) (hw : ∀ x ∈ w, Target x)
    (hmid : ∀ v ∈ preimages lowerPre w, ∀ x ∈ v, Target x) (s : GoString) :
    strings.ToLower (conv s) = encodeAll w ↔
      s ∈ (preimages lowerPre w).flatMap (fun v => (preimages pre v).map encodeAll) := by
  rw [ToLower_eq_iff w hw, List.mem_map, List.mem_flatMap]
  constructor
  · rintro ⟨v, hv, he⟩
    exact ⟨v, hv, (hconv v (hmid v hv) s).mp he.symm⟩
  · rintro ⟨v, hv, he⟩
    exact ⟨v, hv, ((hconv v (hmid v hv) s).mpr he).symm⟩

theorem mid_targets : (∀ v ∈ preimages lowerPre tableRunes, ∀ x ∈ v, Target x) ∧
    (∀ v ∈ preimages lowerPre viewRunes, ∀ x ∈ v, Target x) := by
  decide

theorem lower_lower_table_list :
    ∀ x, x ∈ (preimages lowerPre tableRunes).flatMap
        (fun v => (preimages lowerPre v).map encodeAll) ↔
      x ∈ asciiSpellings (lit "table") := by
  have h1 : ∀ x ∈ (preimages lowerPre tableRunes).flatMap
      (fun v => (preimages lowerPre v).map encodeAll), x ∈ asciiSpellings (lit "table") := by
    decide
  have h2 : ∀ x ∈ asciiSpellings (lit "table"), x ∈ (preimages lowerPre tableRunes).flatMap
      (fun v => (preimages lowerPre v).map encodeAll) := by
    decide
  exact fun x => ⟨h1 x, h2 x⟩

theorem lower_lower_view_list :
    ∀ x, x ∈ (preimages lowerPre viewRunes).flatMap
        (fun v => (preimages lowerPre v).map encodeAll) ↔
      x ∈ asciiSpellings (lit "view") ++ dottedViewSpellings := by
  have h1 : ∀ x ∈ (preimages lowerPre viewRunes).flatMap
      (fun v => (preimages lowerPre v).map encodeAll),
      x ∈ asciiSpellings (lit "view") ++ dottedViewSpellings := by
    decide
  have h2 : ∀ x ∈ asciiSpellings (lit "view") ++ dottedViewSpellings,
      x ∈ (preimages lowerPre viewRunes).flatMap
        (fun v => (preimages lowerPre v).map encodeAll) := by
    decide
  exact fun x => ⟨h1 x, h2 x⟩

theorem upper_lower_table_list :
    ∀ x, x ∈ (preimages lowerPre tableRunes).flatMap
        (fun v => (preimages upperPre v).map encodeAll) ↔
      x ∈ asciiSpellings (lit "table") := by
  have h1 : ∀ x ∈ (preimages lowerPre tableRunes).flatMap
      (fun v => (preimages upperPre v).map encodeAll), x ∈ asciiSpellings (lit "table") := by
    decide
  have h2 : ∀ x ∈ asciiSpellings (lit "table"), x ∈ (preimages lowerPre tableRunes).flatMap
      (fun v => (preimages upperPre v).map encodeAll) := by
    decide
  exact fun x => ⟨h1 x, h2 x⟩

theorem upper_lower_view_list :
    ∀ x, x ∈ (preimages lowerPre viewRunes).flatMap
        (fun v => (preimages upperPre v).map encodeAll) ↔
      x ∈ (asciiSpellings (lit "view") ++ dottedViewSpellings) ++ dotlessViewSpellings := by
  have h1 : ∀ x ∈ (preimages lowerPre viewRunes).flatMap
      (fun v => (preimages upperPre v).map encodeAll),
      x ∈ (asciiSpellings (lit "view") ++ dottedViewSpellings) ++ dotlessViewSpellings := by
    decide
  have h2 : ∀ x ∈ (asciiSpellings (lit "view") ++ dottedViewSpellings) ++ dotlessViewSpellings,
      x ∈ (preimages lowerPre viewRunes).flatMap
        (fun v => (preimages upperPre v).map encodeAll) := by
    decide
  exact fun x => ⟨h1 x, h2 x⟩

theorem lower_lower_iff (s : GoString) :
    (strings.ToLower (strings.ToLower s) = lit "table" ↔ strings.ToLower s = lit "table") ∧
    (strings.ToLower (strings.ToLower s) = lit "view" ↔ strings.ToLower s = lit "view") := by
  constructor
  · rw [lower_table_iff s, lit_words.1,
      lower_conv_iff strings.ToLower lowerPre ToLower_eq_iff tableRunes targets_table
        mid_targets.1 s, lower_lower_table_list, lit_words.1]
  · rw [lower_view_iff s, lit_words.2.1,
      lower_conv_iff strings.ToLower lowerPre ToLower_eq_iff viewRunes targets_view
        mid_targets.2 s, lower_lower_view_list, lit_words.2.1]

theorem upper_lower_iff (s : GoString) :
    (strings.ToLower (strings.ToUpper s) = lit "table" ↔ strings.ToLower s = lit "table") ∧
    (strings.ToLower (strings.ToUpper s) = lit "view" ↔
      strings.ToLower s = lit "view" ∨ s ∈ dotlessViewSpellings) := by
  constructor
  · rw [lower_table_iff s, lit_words.1,
      lower_conv_iff strings.ToUpper upperPre ToUpper_eq_iff tableRunes targets_table
        mid_targets.1 s, upper_lower_table_list, lit_words.1]
  · rw [lower_view_iff s, lit_words.2.1,
      lower_conv_iff strings.ToUpper upperPre ToUpper_eq_iff viewRunes targets_view
        mid_targets.2 s, upper_lower_view_list, lit_words.2.1, List.mem_append]

theorem dotless_not_lower : ∀ x ∈ dotlessViewSpellings,
    x ∉ asciiSpellings (lit "table") ∧ x ∉ asciiSpellings (lit "view") ++ dottedViewSpellings := by
  decide

/-- The reference output of spec 8.6: header `a,b`, rows `1,x` and `2,y`. -/
theorem format_reference :
    Format [lit "a", lit "b"]
      [[Value.int 1, Value.str (lit "x")], [Value.int 2, Value.str (lit "y")]] ⟨SchemaFul, 0⟩
      = Except.ok [0x61, 0x2C, 0x62, 0x0A, 0x31, 0x2C, 0x78, 0x0A, 0x32, 0x2C, 0x79, 0x0A] := by
  rfl

theorem afterNext_state (k : Nat) : ∀ s : BufferedStream, s.cursor + k ≤ s.rows.length →
    (s.afterNext k).cursor = s.cursor + k ∧ (s.afterNext k).rows = s.rows := by
  induction k with
  | zero => intro s _; exact ⟨rfl, rfl⟩
  | succ k ih =>
    intro s h
    have hlt : s.cursor < s.rows.length := by omega
    have hn : (s.Next).2 = { s with cursor := s.cursor + 1 } := by
      unfold BufferedStream.Next
      rw [List.getElem?_eq_getElem hlt]
    have := ih (s.Next).2 (by rw [hn]; simp only; omega)
    rw [hn] at this
    simp only at this
    unfold BufferedStream.afterNext
    rw [hn]
    exact ⟨by omega, this.2⟩

/-- The fuel `n + 1` that `encodeValue` passes to `decimalDigits` is never
used up: any larger fuel gives the same digits. -/
theorem decimalDigits_fuel (n : Nat) : ∀ fuel, n < fuel →
    decimalDigits fuel n = decimalDigits (n + 1) n := by
  induction n using Nat.strong_induction_on with
  | _ n ih =>
    intro fuel hf
    obtain ⟨m, rfl⟩ : ∃ m, fuel = m + 1 := ⟨fuel - 1, by omega⟩
    unfold decimalDigits
    by_cases h : n < 10
    · rw [if_pos h, if_pos h]
    · rw [if_neg h, if_neg h, ih (n / 10) (by omega) m (by omega),
        ih (n / 10) (by omega) n (by omega)]

/-! ## The claims -/

/-- C1: printing then parsing gives the type back for `StructureTypeTable` and
`StructureTypeView`, and the empty string parses to `StructureTypeNone`. -/
theorem print_then_parse_table_view :
    StructureTypeFromString (StructureType.String StructureTypeTable) = StructureTypeTable ∧
    StructureTypeFromString (StructureType.String StructureTypeView) = StructureTypeView ∧
    StructureTypeFromString (lit "") = StructureTypeNone := by
  decide

/-- C2, as stated, fails: the upper case of `vıew` (with U+0131, bytes
`76 C4 B1 65 77`) is `VIEW`, which parses to `StructureTypeView`, while `vıew`
itself parses to `StructureTypeNone`.  `strings.ToUpper` maps U+0131 to `I`
by the range `{0x0131, 0x0131, d{-232, 0, -232}}` of `unicode.CaseRanges`,
and `strings.ToLower` leaves U+0131, a lower-case letter, as it is. -/
theorem upper_changes_dotless_view :
    lit "vıew" = [0x76, 0xC4, 0xB1, 0x65, 0x77] ∧
    strings.ToUpper [0x76, 0xC4, 0xB1, 0x65, 0x77] = lit "VIEW" ∧
    strings.ToLower [0x76, 0xC4, 0xB1, 0x65, 0x77] = [0x76, 0xC4, 0xB1, 0x65, 0x77] ∧
    StructureTypeFromString (strings.ToUpper [0x76, 0xC4, 0xB1, 0x65, 0x77]) = StructureTypeView ∧
    StructureTypeFromString [0x76, 0xC4, 0xB1, 0x65, 0x77] = StructureTypeNone ∧
    ¬ (StructureTypeFromString (strings.ToUpper [0x76, 0xC4, 0xB1, 0x65, 0x77]) =
        StructureTypeFromString [0x76, 0xC4, 0xB1, 0x65, 0x77]) := by
  decide

/-- C2, amended: lower-casing the input never changes the result of
`StructureTypeFromString`; upper-casing it does not either, except on the
eight strings that spell `v`, U+0131, `e`, `w`, which parse to
`StructureTypeNone` and whose upper case parses to `StructureTypeView`;
`TABLE`, `Table` and `table` all parse to `StructureTypeTable`. -/
theorem case_insensitive_but_dotless (s : GoString) :
    StructureTypeFromString (strings.ToLower s) = StructureTypeFromString s ∧
    (s ∉ dotlessViewSpellings →
      StructureTypeFromString (strings.ToUpper s) = StructureTypeFromString s) ∧
    (s ∈ dotlessViewSpellings →
      StructureTypeFromString (strings.ToUpper s) = StructureTypeView ∧
      StructureTypeFromString s = StructureTypeNone) ∧
    StructureTypeFromString (lit "TABLE") = StructureTypeTable ∧
    StructureTypeFromString (lit "Table") = StructureTypeTable ∧
    StructureTypeFromString (lit "table") = StructureTypeTable := by
  refine ⟨?_, ?_, ?_, by decide, by decide, by decide⟩
  · exact fromString_congr _ _ (lower_lower_iff s).1 (lower_lower_iff s).2
  · intro hs
    refine fromString_congr _ _ (upper_lower_iff s).1 ?_
    rw [(upper_lower_iff s).2]
    exact ⟨fun h => h.resolve_right hs, Or.inl⟩
  · intro hs
    have hn := dotless_not_lower s hs
    refine ⟨(fromString_view_iff _).mpr ((upper_lower_iff s).2.mpr (Or.inr hs)), ?_⟩
    rw [fromString_none_iff, ne_eq, ne_eq, lower_table_iff, lower_view_iff]
    exact hn

/-- Witness of C2 amended, at `TaBlE`: it is none of the eight dotless
spellings, and its upper case parses as it does, to `StructureTypeTable`. -/
theorem case_insensitive_but_dotless_witness :
    lit "TaBlE" ∉ dotlessViewSpellings ∧
    StructureTypeFromString (strings.ToUpper (lit "TaBlE")) =
      StructureTypeFromString (lit "TaBlE") ∧
    [0x56, 0xC4, 0xB1, 0x65, 0x57] ∈ dotlessViewSpellings ∧
    StructureTypeFromString (strings.ToUpper [0x56, 0xC4, 0xB1, 0x65, 0x57]) = StructureTypeView :=
  ⟨by decide, (case_insensitive_but_dotless (lit "TaBlE")).2.1 (by decide), by decide,
    ((case_insensitive_but_dotless [0x56, 0xC4, 0xB1, 0x65, 0x57]).2.2.1 (by decide)).1⟩

/-- C3: `StructureTypeFromString` returns a value on every string, one of the
three declared ones, and it returns `StructureTypeNone` on every string whose
lower case is neither `table` nor `view`, the empty string and `unknown`
among them. -/
theorem unrecognized_is_none (s : GoString) :
    (∃ t, StructureTypeFromString s = t ∧
      (t = StructureTypeNone ∨ t = StructureTypeTable ∨ t = StructureTypeView)) ∧
    (strings.ToLower s ≠ lit "table" → strings.ToLower s ≠ lit "view" →
      StructureTypeFromString s = StructureTypeNone) ∧
    StructureTypeFromString (lit "") = StructureTypeNone ∧
    StructureTypeFromString (lit "unknown") = StructureTypeNone := by
  refine ⟨⟨_, rfl, ?_⟩, ?_, by decide, by decide⟩
  · unfold StructureTypeFromString
    simp only
    split_ifs
    · exact Or.inr (Or.inl rfl)
    · exact Or.inr (Or.inr rfl)
    · exact Or.inl rfl
  · intro h1 h2
    exact (fromString_none_iff s).mpr ⟨h1, h2⟩

/-- Witness of C3, at `unknown`. -/
theorem unrecognized_is_none_witness :
    strings.ToLower (lit "unknown") ≠ lit "table" ∧
    strings.ToLower (lit "unknown") ≠ lit "view" ∧
    StructureTypeFromString (lit "unknown") = StructureTypeNone :=
  ⟨by decide, by decide, (unrecognized_is_none (lit "unknown")).2.1 (by decide) (by decide)⟩

/-- C4: `StructureType.String` maps `StructureTypeNone` to the empty string,
`StructureTypeTable` to `table` and `StructureTypeView` to `view`; on every
value of the integer type it returns one of these three strings; and the
three encodings are pairwise distinct, those of Table and View non-empty. -/
theorem string_total_mapping :
    StructureType.String StructureTypeNone = [] ∧
    StructureType.String StructureTypeTable = [0x74, 0x61, 0x62, 0x6C, 0x65] ∧
    StructureType.String StructureTypeView = [0x76, 0x69, 0x65, 0x77] ∧
    StructureType.String StructureTypeTable = lit "table" ∧
    StructureType.String StructureTypeView = lit "view" ∧
    (∀ t : StructureType, StructureType.String t = lit "" ∨
      StructureType.String t = lit "table" ∨ StructureType.String t = lit "view") ∧
    StructureType.String StructureTypeTable ≠ StructureType.String StructureTypeView ∧
    StructureType.String StructureTypeNone ≠ StructureType.String StructureTypeTable ∧
    StructureType.String StructureTypeNone ≠ StructureType.String StructureTypeView ∧
    StructureType.String StructureTypeTable ≠ [] ∧
    StructureType.String StructureTypeView ≠ [] := by
  refine ⟨by decide, by decide, by decide, by decide, by decide, ?_, by decide, by decide,
    by decide, by decide, by decide⟩
  intro t
  unfold StructureType.String
  split_ifs
  · exact Or.inl rfl
  · exact Or.inr (Or.inl rfl)
  · exact Or.inr (Or.inr rfl)
  · exact Or.inl rfl

/-- C5: parsing then printing yields the lower case of the input when that is
`table` or `view`, and the empty string otherwise; the printed form is one of
the empty string, `table` and `view`, and is its own lower case. -/
theorem parse_then_print (s : GoString) :
    (strings.ToLower s = lit "table" ∨ strings.ToLower s = lit "view" →
      StructureType.String (StructureTypeFromString s) = strings.ToLower s) ∧
    (¬ (strings.ToLower s = lit "table" ∨ strings.ToLower s = lit "view") →
      StructureType.String (StructureTypeFromString s) = lit "") ∧
    (StructureType.String (StructureTypeFromString s) = lit "" ∨
      StructureType.String (StructureTypeFromString s) = lit "table" ∨
      StructureType.String (StructureTypeFromString s) = lit "view") ∧
    strings.ToLower (StructureType.String (StructureTypeFromString s)) =
      StructureType.String (StructureTypeFromString s) := by
  have hT : StructureType.String StructureTypeTable = lit "table" := by decide
  have hV : StructureType.String StructureTypeView = lit "view" := by decide
  have hN : StructureType.String StructureTypeNone = lit "" := by decide
  have lT : strings.ToLower (lit "table") = lit "table" := by decide
  have lV : strings.ToLower (lit "view") = lit "view" := by decide
  have lN : strings.ToLower (lit "") = lit "" := by decide
  by_cases h1 : strings.ToLower s = lit "table"
  · have e := (fromString_table_iff s).mpr h1
    rw [e, hT, h1]
    exact ⟨fun _ => rfl, fun h => absurd (Or.inl rfl) h, Or.inr (Or.inl rfl), lT⟩
  by_cases h2 : strings.ToLower s = lit "view"
  · have e := (fromString_view_iff s).mpr h2
    rw [e, hV, h2]
    exact ⟨fun _ => rfl, fun h => absurd (Or.inr rfl) h, Or.inr (Or.inr rfl), lV⟩
  · have e := (fromString_none_iff s).mpr ⟨h1, h2⟩
    rw [e, hN]
    exact ⟨fun h => absurd h (not_or.mpr ⟨h1, h2⟩), fun _ => rfl, Or.inl rfl, lN⟩

/-- Witness of C5, at `ViEw` (recognized) and at `views` (not recognized). -/
theorem parse_then_print_witness :
    (strings.ToLower (lit "ViEw") = lit "table" ∨ strings.ToLower (lit "ViEw") = lit "view") ∧
    StructureType.String (StructureTypeFromString (lit "ViEw")) = strings.ToLower (lit "ViEw") ∧
    ¬ (strings.ToLower (lit "views") = lit "table" ∨ strings.ToLower (lit "views") = lit "view") ∧
    StructureType.String (StructureTypeFromString (lit "views")) = lit "" :=
  ⟨by decide, (parse_then_print (lit "ViEw")).1 (by decide), by decide,
    (parse_then_print (lit "views")).2.1 (by decide)⟩

/-- C8: for every value `t` of the integer type, printing then parsing gives
`t` back if and only if `t` is one of the three declared values; every other
value prints as the empty string and parses back to `StructureTypeNone`. -/
theorem print_then_parse_iff (t : StructureType) :
    (StructureTypeFromString (StructureType.String t) = t ↔
      (t = StructureTypeNone ∨ t = StructureTypeTable ∨ t = StructureTypeView)) ∧
    (¬ (t = StructureTypeNone ∨ t = StructureTypeTable ∨ t = StructureTypeView) →
      StructureType.String t = lit "" ∧
      StructureTypeFromString (StructureType.String t) = StructureTypeNone) := by
  have rN : StructureTypeFromString (StructureType.String StructureTypeNone) =
      StructureTypeNone := by decide
  have rT : StructureTypeFromString (StructureType.String StructureTypeTable) =
      StructureTypeTable := by decide
  have rV : StructureTypeFromString (StructureType.String StructureTypeView) =
      StructureTypeView := by decide
  have rE : StructureTypeFromString (lit "") = StructureTypeNone := by decide
  by_cases h0 : t = StructureTypeNone
  · subst h0
    exact ⟨⟨fun _ => Or.inl rfl, fun _ => rN⟩, fun h => absurd (Or.inl rfl) h⟩
  by_cases h1 : t = StructureTypeTable
  · subst h1
    exact ⟨⟨fun _ => Or.inr (Or.inl rfl), fun _ => rT⟩, fun h => absurd (Or.inr (Or.inl rfl)) h⟩
  by_cases h2 : t = StructureTypeView
  · subst h2
    exact ⟨⟨fun _ => Or.inr (Or.inr rfl), fun _ => rV⟩, fun h => absurd (Or.inr (Or.inr rfl)) h⟩
  · have e : StructureType.String t = lit "" := by
      unfold StructureType.String
      rw [if_neg h0, if_neg h1, if_neg h2]
    rw [e, rE]
    refine ⟨⟨fun h => absurd h.symm h0, fun h => ?_⟩, fun _ => ⟨rfl, rfl⟩⟩
    rcases h with h | h | h
    · exact absurd h h0
    · exact absurd h h1
    · exact absurd h h2

/-- Witness of C8, at the undeclared values 7 and -1. -/
theorem print_then_parse_iff_witness :
    ¬ ((⟨7⟩ : StructureType) = StructureTypeNone ∨ (⟨7⟩ : StructureType) = StructureTypeTable ∨
      (⟨7⟩ : StructureType) = StructureTypeView) ∧
    StructureType.String ⟨7⟩ = lit "" ∧
    StructureTypeFromString (StructureType.String ⟨7⟩) = StructureTypeNone ∧
    StructureTypeFromString (StructureType.String ⟨-1⟩) = StructureTypeNone :=
  ⟨by decide, ((print_then_parse_iff ⟨7⟩).2 (by decide)).1,
    ((print_then_parse_iff ⟨7⟩).2 (by decide)).2, ((print_then_parse_iff ⟨-1⟩).2 (by decide)).2⟩

/-- C9: `StructureTypeFromString` always returns one of the three declared
values, and printing its result and parsing again returns the same value. -/
theorem parse_closed_and_stable (s : GoString) :
    (StructureTypeFromString s = StructureTypeNone ∨
      StructureTypeFromString s = StructureTypeTable ∨
      StructureTypeFromString s = StructureTypeView) ∧
    StructureTypeFromString (StructureType.String (StructureTypeFromString s)) =
      StructureTypeFromString s := by
  have rN : StructureTypeFromString (StructureType.String StructureTypeNone) =
      StructureTypeNone := by decide
  have rT : StructureTypeFromString (StructureType.String StructureTypeTable) =
      StructureTypeTable := by decide
  have rV : StructureTypeFromString (StructureType.String StructureTypeView) =
      StructureTypeView := by decide
  have h : StructureTypeFromString s = StructureTypeNone ∨
      StructureTypeFromString s = StructureTypeTable ∨
      StructureTypeFromString s = StructureTypeView := by
    unfold StructureTypeFromString
    simp only
    split_ifs
    · exact Or.inr (Or.inl rfl)
    · exact Or.inr (Or.inr rfl)
    · exact Or.inl rfl
  refine ⟨h, ?_⟩
  rcases h with h | h | h
  · rw [h, rN]
  · rw [h, rT]
  · rw [h, rV]

/-- C10, as stated, fails: `vİew` (with U+0130, bytes `76 C4 B0 65 77`) holds
a non-ASCII character and is none of the sixteen ASCII spellings of `view`,
and yet parses to `StructureTypeView`.  `strings.ToLower` maps U+0130 to `i`
by the range `{0x0130, 0x0130, d{0, -199, 0}}` of `unicode.CaseRanges`. -/
theorem dotted_view_is_view :
    lit "vİew" = [0x76, 0xC4, 0xB0, 0x65, 0x77] ∧
    strings.ToLower [0x76, 0xC4, 0xB0, 0x65, 0x77] = lit "view" ∧
    (∃ b ∈ ([0x76, 0xC4, 0xB0, 0x65, 0x77] : GoString), 0x80 ≤ b.val) ∧
    StructureTypeFromString [0x76, 0xC4, 0xB0, 0x65, 0x77] = StructureTypeView ∧
    [0x76, 0xC4, 0xB0, 0x65, 0x77] ∉ asciiSpellings (lit "view") ∧
    ¬ (StructureTypeFromString [0x76, 0xC4, 0xB0, 0x65, 0x77] = StructureTypeView →
        [0x76, 0xC4, 0xB0, 0x65, 0x77] ∈ asciiSpellings (lit "view")) := by
  decide

/-- C10, amended: `StructureTypeFromString` returns `StructureTypeTable`
exactly on the 32 ASCII case spellings of `table`, and `StructureTypeView`
exactly on the 16 ASCII case spellings of `view` and on the 8 strings that
spell `v`, U+0130, `e`, `w` with `v`, `e`, `w` in either case; every other
string, with whitespace, extra characters or any other non-ASCII character,
is classified as neither. -/
theorem table_view_spellings (s : GoString) :
    (StructureTypeFromString s = StructureTypeTable ↔ s ∈ asciiSpellings (lit "table")) ∧
    (StructureTypeFromString s = StructureTypeView ↔
      (s ∈ asciiSpellings (lit "view") ∨ s ∈ dottedViewSpellings)) ∧
    (asciiSpellings (lit "table")).length = 32 ∧
    (asciiSpellings (lit "view")).length = 16 ∧
    dottedViewSpellings.length = 8 := by
  refine ⟨?_, ?_, by decide, by decide, by decide⟩
  · rw [fromString_table_iff, lower_table_iff]
  · rw [fromString_view_iff, lower_view_iff, List.mem_append]

/-- C6: a stream that holds `N` buffered rows not yet read answers `HasNext`
with true and `Next` with the next row for each of the first `N` calls of
`Next`; after them `HasNext` answers false and the next call of `Next`
returns `ExhaustedOrBackendError`; and `HasNext` leaves the stream, its
cursor included, as it was. -/
theorem stream_n_rows (s : BufferedStream) (N : Nat) (hN : s.rows.length = s.cursor + N) :
    (∀ k, k < N → ((s.afterNext k).HasNext).1 = true ∧
      ∃ row, ((s.afterNext k).Next).1 = Except.ok row ∧ s.rows[s.cursor + k]? = some row) ∧
    ((s.afterNext N).HasNext).1 = false ∧
    (∀ k, ((s.afterNext k).HasNext).2 = s.afterNext k) ∧
    ((s.afterNext N).Next).1 = Except.error StreamError.ExhaustedOrBackendError := by
  refine ⟨?_, ?_, fun _ => rfl, ?_⟩
  · intro k hk
    obtain ⟨hc, hr⟩ := afterNext_state k s (by omega)
    have hlt : s.cursor + k < s.rows.length := by omega
    refine ⟨?_, s.rows[s.cursor + k], ?_, List.getElem?_eq_getElem hlt⟩
    · unfold BufferedStream.HasNext
      rw [hc, hr]
      exact decide_eq_true hlt
    · unfold BufferedStream.Next
      rw [hc, hr, List.getElem?_eq_getElem hlt]
  · obtain ⟨hc, hr⟩ := afterNext_state N s (by omega)
    unfold BufferedStream.HasNext
    rw [hc, hr]
    exact decide_eq_false (by omega)
  · obtain ⟨hc, hr⟩ := afterNext_state N s (by omega)
    unfold BufferedStream.Next
    rw [hc, hr, List.getElem?_eq_none (by omega)]

/-- Witness of C6: a fresh stream of two rows; the second call of `Next` is
expected to succeed, the third fails. -/
theorem stream_n_rows_witness :
    (⟨SchemaFul, [lit "a"], [[Value.int 1], [Value.int 2]], 0⟩ : BufferedStream).rows.length
      = 0 + 2 ∧
    (((⟨SchemaFul, [lit "a"], [[Value.int 1], [Value.int 2]], 0⟩ :
      BufferedStream).afterNext 1).HasNext).1 = true ∧
    (((⟨SchemaFul, [lit "a"], [[Value.int 1], [Value.int 2]], 0⟩ :
      BufferedStream).afterNext 2).Next).1 = Except.error StreamError.ExhaustedOrBackendError :=
  ⟨rfl,
    ((stream_n_rows ⟨SchemaFul, [lit "a"], [[Value.int 1], [Value.int 2]], 0⟩ 2 rfl).1 1
      (by decide)).1,
    (stream_n_rows ⟨SchemaFul, [lit "a"], [[Value.int 1], [Value.int 2]], 0⟩ 2 rfl).2.2.2⟩

/-- C7: on a SchemaFul batch with a non-empty header in which some row's
length differs from the header's, `Format` fails with `ArityMismatch`,
whatever the values of the rows. -/
theorem format_arity_mismatch (header : Header) (rows : List Row) (opts : FormatterOptions)
    (hs : opts.SchemaType = SchemaFul) (hh : header ≠ [])
    (hr : ∃ r ∈ rows, r.length ≠ header.length) :
    Format header rows opts = Except.error FormatError.ArityMismatch := by
  unfold Format
  have ha : rows.any (fun r => decide (r.length ≠ header.length)) = true := by
    obtain ⟨r, hm, hl⟩ := hr
    exact List.any_eq_true.mpr ⟨r, hm, decide_eq_true hl⟩
  rw [if_pos ⟨hs, hh, ha⟩]

/-- Witness of C7: a row of length 3 against a header of length 2, SchemaFul,
one of the values not representable. -/
theorem format_arity_mismatch_witness :
    Format [lit "a", lit "b"] [[Value.int 1, Value.other 0, Value.null]] ⟨SchemaFul, 0⟩
      = Except.error FormatError.ArityMismatch :=
  format_arity_mismatch [lit "a", lit "b"] [[Value.int 1, Value.other 0, Value.null]]
    ⟨SchemaFul, 0⟩ rfl (by decide) ⟨[Value.int 1, Value.other 0, Value.null], by decide, by decide⟩

end Dbee
